import Mathlib

/-!
Password strength checker (script.js)

A shallow embedding of the analysis core of `script.js`:
`analyzePassword`, `generateExplanations`, `displayBruteForceTime`,
`formatTime` and `formatNumber`.

Modelling conventions.

* A JavaScript string is the list of its UTF-16 code units, so `password.length`
  is `List.length` and a regular expression without the `u` flag tests one code
  unit at a time.
* `score` only ever holds sums of the literals `0.5, 1, 1.5, 2, 3`; all of them
  are exact in binary floating point, so the score is a rational number here.
* A number that the script computes in double precision is a `JSNumber`: a
  rational value, `Infinity` or `-Infinity` (NaN never arises: the script divides
  by non-zero constants only). `roundDouble` rounds a rational to the nearest
  double, a tie going to the even significand, and overflows to `Infinity`.
  Every division rounds its quotient this way. ECMAScript leaves the accuracy
  of `Math.pow` to the engine, so `analyzePassword` takes the engine's `Math.pow`
  as an argument; `nearestPow` is the one that rounds the power to the nearest
  double, and `FaithfulPow` says of an engine that its result lies between any
  two doubles that enclose the power.
* The page is reduced to what `displayBruteForceTime` touches: the hidden class
  of the section and the content of the element it writes, kept as the two
  numbers that are formatted into it.
* `toLocaleString` depends on the locale of the browser and is an argument of
  `formatNumber` and `formatTime`; `enUS` is one such locale.
-/

namespace PasswordWebsite

/-- A JavaScript string, as the sequence of its UTF-16 code units. -/
abbrev JSString := List Nat

/-- The UTF-16 code units of one Unicode scalar value. -/
def charCodeUnits (c : Char) : List Nat :=
  if c.toNat < 65536 then [c.toNat]
  else [55296 + (c.toNat - 65536) / 1024, 56320 + (c.toNat - 65536) % 1024]

/-- The JavaScript string denoted by a string literal. -/
def js (s : String) : JSString :=
  s.toList.flatMap charCodeUnits

/-- GUESSES_PER_SECOND: ten billion guesses per second. -/
def GUESSES_PER_SECOND : Nat := 10000000000

/-- The five entries of the table STRENGTH_LEVELS. -/
inductive StrengthLevel where
  | VERY_WEAK
  | WEAK
  | MODERATE
  | STRONG
  | VERY_STRONG
  deriving DecidableEq, Repr

/-- The label field of an entry of STRENGTH_LEVELS. -/
def StrengthLevel.label : StrengthLevel → String
  | .VERY_WEAK => "Very Weak"
  | .WEAK => "Weak"
  | .MODERATE => "Moderate"
  | .STRONG => "Strong"
  | .VERY_STRONG => "Very Strong"

/-- The score field (the ordinal 0 to 4) of an entry of STRENGTH_LEVELS. -/
def StrengthLevel.ordinal : StrengthLevel → Nat
  | .VERY_WEAK => 0
  | .WEAK => 1
  | .MODERATE => 2
  | .STRONG => 3
  | .VERY_STRONG => 4

/-- The character class a-z. -/
def isLowercase (c : Nat) : Bool := decide (97 ≤ c ∧ c ≤ 122)

/-- The character class A-Z. -/
def isUppercase (c : Nat) : Bool := decide (65 ≤ c ∧ c ≤ 90)

/-- The character class 0-9. -/
def isNumber (c : Nat) : Bool := decide (48 ≤ c ∧ c ≤ 57)

/-- The negated character class of a-z, A-Z and 0-9. -/
def isSpecial (c : Nat) : Bool := !(isLowercase c || isUppercase c || isNumber c)

/-- The method test of a regular expression that is a single character class:
some code unit of the string is in the class. -/
def regexTest (cls : Nat → Bool) (s : JSString) : Bool := s.any cls

/-- The function generateExplanations. -/
def generateExplanations (length characterTypes : Nat)
    (hasLowercase hasUppercase hasNumbers hasSpecial : Bool)
    (strength : StrengthLevel) : List String :=
  let explanations : List String := []
  -- Length feedback
  let explanations :=
    if length < 8 then
      explanations ++ ["Password is too short. Use at least 8 characters."]
    else if length < 12 then
      explanations ++ ["Password length is acceptable but could be longer."]
    else if length < 16 then
      explanations ++ ["Good password length."]
    else
      explanations ++ ["Excellent password length."]
  -- Character variety feedback
  let explanations :=
    if characterTypes = 1 then
      explanations ++ ["Using only one character type makes the password vulnerable."]
    else if characterTypes = 2 then
      explanations ++ ["Using two character types improves security."]
    else if characterTypes = 3 then
      explanations ++ ["Using three character types provides good security."]
    else
      explanations ++ ["Using all four character types maximizes security."]
  -- Specific feedback
  let explanations :=
    if !hasLowercase then explanations ++ ["Consider adding lowercase letters."]
    else explanations
  let explanations :=
    if !hasUppercase then explanations ++ ["Consider adding uppercase letters."]
    else explanations
  let explanations :=
    if !hasNumbers then explanations ++ ["Consider adding numbers."]
    else explanations
  let explanations :=
    if !hasSpecial then explanations ++ ["Consider adding special characters (!@#$%^&*)."]
    else explanations
  -- Strength-specific feedback
  let explanations :=
    if strength = StrengthLevel.VERY_WEAK then
      explanations ++ ["This password can be cracked almost instantly."]
    else if strength = StrengthLevel.WEAK then
      explanations ++ ["This password can be cracked quickly with modern hardware."]
    else if strength = StrengthLevel.MODERATE then
      explanations ++ ["This password provides basic protection but could be stronger."]
    else if strength = StrengthLevel.STRONG then
      explanations ++ ["This password provides good protection against brute-force attacks."]
    else
      explanations ++ ["This password provides excellent protection against brute-force attacks."]
  explanations

/-- The block of analyzePassword that determines the strength level; it reads
the score and nothing else. -/
def determineStrength (score : ℚ) : StrengthLevel :=
  if score ≥ 9 / 2 then StrengthLevel.VERY_STRONG
  else if score ≥ 7 / 2 then StrengthLevel.STRONG
  else if score ≥ 2 then StrengthLevel.MODERATE
  else if score ≥ 1 then StrengthLevel.WEAK
  else StrengthLevel.VERY_WEAK

/-- A JavaScript number other than NaN: a finite value, Infinity or -Infinity.
A finite value that the script computes is a double; the rational carries its
exact value. -/
inductive JSNumber where
  | finite (value : ℚ)
  | infinity
  | negInfinity
  deriving DecidableEq

/-- The comparison a < b of two numbers. -/
def JSNumber.lt : JSNumber → JSNumber → Bool
  | .finite a, .finite b => decide (a < b)
  | .finite _, .infinity => true
  | .negInfinity, .finite _ => true
  | .negInfinity, .infinity => true
  | _, _ => false

/-- The nearest integer, a tie going to the even one. -/
def roundHalfEven (y : ℚ) : Int :=
  let f := ⌊y⌋
  if y - f < 1 / 2 then f
  else if 1 / 2 < y - f then f + 1
  else if f % 2 = 0 then f
  else f + 1

/-- The binary exponent of a positive rational, and the exponent -1022 of the
subnormal doubles below it. -/
def binade (x : ℚ) : Int := max (Int.log 2 x) (-1022)

/-- The nearest multiple of the spacing of the doubles around x, which is 2 to
the power binade x - 52. -/
def roundToGrid (x : ℚ) : ℚ :=
  roundHalfEven (x / 2 ^ (binade x - 52)) * 2 ^ (binade x - 52)

/-- The double nearest to a rational, a tie going to the even significand; a
magnitude that rounds to 2 to the 1024 or more overflows to an infinity. -/
def roundDouble (x : ℚ) : JSNumber :=
  if x < 0 then
    if roundToGrid (-x) < 2 ^ 1024 then JSNumber.finite (-roundToGrid (-x))
    else JSNumber.negInfinity
  else if roundToGrid x < 2 ^ 1024 then JSNumber.finite (roundToGrid x)
  else JSNumber.infinity

/-- The division a / c of a number by a positive constant. -/
def JSNumber.div (a : JSNumber) (c : ℚ) : JSNumber :=
  match a with
  | .finite q => roundDouble (q / c)
  | .infinity => .infinity
  | .negInfinity => .negInfinity

/-- One Math.pow on two non-negative integers: the power, rounded to the
nearest double. ECMAScript leaves the accuracy of Math.pow to the engine, so
analyzePassword takes the engine's Math.pow as an argument, and this is the one
used where a statement needs a concrete engine. -/
def nearestPow (base exponent : Nat) : JSNumber :=
  roundDouble ((base : ℚ) ^ exponent)

/-- The object returned by analyzePassword. -/
structure Analysis where
  password : JSString
  length : Nat
  hasLowercase : Bool
  hasUppercase : Bool
  hasNumbers : Bool
  hasSpecial : Bool
  characterTypes : Nat
  characterSetSize : Nat
  strength : StrengthLevel
  score : ℚ
  explanations : List String
  totalCombinations : JSNumber

/-- The function analyzePassword; mathPow is the Math.pow of the engine, on
non-negative integers. -/
def analyzePassword (mathPow : Nat → Nat → JSNumber) (password : JSString) : Analysis :=
  let length := password.length
  -- Character variety detection
  let hasLowercase := regexTest isLowercase password
  let hasUppercase := regexTest isUppercase password
  let hasNumbers := regexTest isNumber password
  let hasSpecial := regexTest isSpecial password
  -- Count character types
  let characterTypes :=
    ([hasLowercase, hasUppercase, hasNumbers, hasSpecial].filter id).length
  -- Calculate character set size for brute-force estimation
  let characterSetSize : Nat := 0
  let characterSetSize := if hasLowercase then characterSetSize + 26 else characterSetSize
  let characterSetSize := if hasUppercase then characterSetSize + 26 else characterSetSize
  let characterSetSize := if hasNumbers then characterSetSize + 10 else characterSetSize
  let characterSetSize := if hasSpecial then characterSetSize + 32 else characterSetSize
  -- Calculate password strength score
  let score : ℚ := 0
  -- Length scoring
  let score :=
    if length ≥ 16 then score + 3
    else if length ≥ 12 then score + 2
    else if length ≥ 8 then score + 1
    else if length ≥ 4 then score + 1 / 2
    else score
  -- Character variety scoring
  let score :=
    if characterTypes = 4 then score + 2
    else if characterTypes = 3 then score + 3 / 2
    else if characterTypes = 2 then score + 1
    else if characterTypes = 1 then score + 1 / 2
    else score
  -- Determine strength level
  let strength := determineStrength score
  -- Generate explanation
  let explanations :=
    generateExplanations length characterTypes hasLowercase hasUppercase hasNumbers
      hasSpecial strength
  { password := password
    length := length
    hasLowercase := hasLowercase
    hasUppercase := hasUppercase
    hasNumbers := hasNumbers
    hasSpecial := hasSpecial
    characterTypes := characterTypes
    characterSetSize := characterSetSize
    strength := strength
    score := score
    explanations := explanations
    totalCombinations :=
      if characterSetSize > 0 then mathPow characterSetSize length else JSNumber.finite 0 }

/-- What displayBruteForceTime writes into the element bruteforce-time: the
two numbers it hands to formatNumber and formatTime. -/
structure BruteForceEstimate where
  totalCombinations : JSNumber
  seconds : JSNumber
  deriving DecidableEq

/-- The part of the page displayBruteForceTime acts on: whether the section
bruteforce-section carries the class hidden, and the content of the element
bruteforce-time (none while nothing has been written to it). -/
structure BruteForceSection where
  hidden : Bool
  bruteforceTime : Option BruteForceEstimate
  deriving DecidableEq

/-- The function displayBruteForceTime, as a transformer of the section. -/
def displayBruteForceTime (analysis : Analysis) (dom : BruteForceSection) :
    BruteForceSection :=
  if analysis.characterSetSize = 0 ∨ analysis.length = 0 then
    { dom with hidden := true }
  else
    let dom := { dom with hidden := false }
    let totalCombinations := analysis.totalCombinations
    let seconds := totalCombinations.div (GUESSES_PER_SECOND : ℚ)
    { dom with bruteforceTime := some ⟨totalCombinations, seconds⟩ }

/-- Math.round: the nearest integer, a tie going up. -/
def mathRound (x : ℚ) : Int := ⌊x + 1 / 2⌋

/-- The method toString of a number that is an integer (in the range where
JavaScript prints all its digits). -/
def numberToString (n : Int) : String := toString n

/-- The method toExponential called with 2, for a number that is at least 1: one
digit, a point, two digits, then the decimal exponent; the three digits are
rounded to nearest, a tie going up. -/
def toExponential2 (x : ℚ) : String :=
  let e := Nat.log 10 ⌊x⌋.toNat
  let n := (mathRound (x / 10 ^ e * 100)).toNat
  let e := if n ≥ 1000 then e + 1 else e
  let n := if n ≥ 1000 then n / 10 else n
  toString (n / 100) ++ "." ++ toString (n / 10 % 10) ++ toString (n % 10)
    ++ "e+" ++ toString e

/-- Digits, least significant first, with a comma after every third one that
has a successor. -/
def groupThousands : List Char → List Char
  | a :: b :: c :: d :: rest => a :: b :: c :: ',' :: groupThousands (d :: rest)
  | digits => digits

/-- The method toLocaleString of a non-negative integer in the locale en-US, the
one the comment of formatNumber has in mind ("with commas"). -/
def enUS (n : Int) : String :=
  String.mk (groupThousands (toString n.toNat).toList.reverse).reverse

/-- The function formatNumber. The method toLocaleString depends on the locale
of the browser and is an argument. -/
def formatNumber (toLocaleString : Int → String) (num : JSNumber) : String :=
  match num with
  | .finite q =>
    if q < 1000 then
      numberToString (mathRound q)
    else if q < 1000000 then
      toLocaleString (mathRound q)
    -- For very large numbers, use scientific notation
    else if q ≥ 10 ^ 15 then
      toExponential2 q
    else
      toLocaleString (mathRound q)
  -- Infinity fails num < 1000 and num < 1000000 and passes num >= 1e15, and
  -- toExponential prints an infinity by its name
  | .infinity => "Infinity"
  -- -Infinity passes num < 1000; Math.round keeps it and toString prints its name
  | .negInfinity => "-Infinity"

/-- The function formatTime. -/
def formatTime (toLocaleString : Int → String) (seconds : JSNumber) : String :=
  if seconds.lt (.finite 1) then
    "Less than 1 second"
  else if seconds.lt (.finite 60) then
    formatNumber toLocaleString seconds ++ " second"
      ++ (if seconds ≠ .finite 1 then "s" else "")
  else
    let minutes := seconds.div 60
    if minutes.lt (.finite 60) then
      formatNumber toLocaleString minutes ++ " minute"
        ++ (if minutes ≠ .finite 1 then "s" else "")
    else
      let hours := minutes.div 60
      if hours.lt (.finite 24) then
        formatNumber toLocaleString hours ++ " hour"
          ++ (if hours ≠ .finite 1 then "s" else "")
      else
        let days := hours.div 24
        if days.lt (.finite 365) then
          formatNumber toLocaleString days ++ " day"
            ++ (if days ≠ .finite 1 then "s" else "")
        else
          let years := days.div 365
          if years.lt (.finite 1000) then
            formatNumber toLocaleString years ++ " year"
              ++ (if years ≠ .finite 1 then "s" else "")
          else
            let millennia := years.div 1000
            formatNumber toLocaleString millennia ++ " millennium"
              ++ (if millennia ≠ .finite 1 then "a" else "")

/-- The constant timeEstimate of displayBruteForceTime: the text shown after
"Estimated Time:" for the content written to bruteforce-time. -/
def BruteForceEstimate.timeEstimate (toLocaleString : Int → String)
    (e : BruteForceEstimate) : String :=
  formatTime toLocaleString e.seconds

/-! ## The specification's formulas -/

/-- The length contribution to the score, as the specification words it. -/
def lengthContribution (length : Nat) : ℚ :=
  if length ≥ 16 then 3
  else if length ≥ 12 then 2
  else if length ≥ 8 then 1
  else if length ≥ 4 then 1 / 2
  else 0

/-- The variety contribution to the score, as the specification words it. -/
def varietyContribution (characterTypes : Nat) : ℚ :=
  if characterTypes = 4 then 2
  else if characterTypes = 3 then 3 / 2
  else if characterTypes = 2 then 1
  else if characterTypes = 1 then 1 / 2
  else 0

/-- The number of true flags among four, as the specification words it. -/
def countTrue (a b c d : Bool) : Nat :=
  a.toNat + b.toNat + c.toNat + d.toNat

/-- The character set size as the specification words it: the sum of the class
constants over the classes present. -/
def classSizeSum (lower upper digit special : Bool) : Nat :=
  (if lower then 26 else 0) + (if upper then 26 else 0) + (if digit then 10 else 0)
    + (if special then 32 else 0)

/-- The four character classes the analysis distinguishes. -/
inductive CharClass where
  | lowercase
  | uppercase
  | number
  | special
  deriving DecidableEq, Repr

/-- The flag an analysis holds for a character class. -/
def Analysis.hasClass (a : Analysis) : CharClass → Bool
  | .lowercase => a.hasLowercase
  | .uppercase => a.hasUppercase
  | .number => a.hasNumbers
  | .special => a.hasSpecial

/-- The length-band remark, as the specification words it: too short below 8,
acceptable for 8 to 11, good for 12 to 15, excellent from 16 on. -/
def lengthRemark (length : Nat) : String :=
  if length < 8 then "Password is too short. Use at least 8 characters."
  else if length ≤ 11 then "Password length is acceptable but could be longer."
  else if length ≤ 15 then "Good password length."
  else "Excellent password length."

/-- The remark for a password that has all four character types. -/
def allFourRemark : String := "Using all four character types maximizes security."

/-- The four variety remarks. -/
def varietyRemarks : List String :=
  ["Using only one character type makes the password vulnerable.",
   "Using two character types improves security.",
   "Using three character types provides good security.",
   allFourRemark]

/-- The variety remark of each band of characterTypes the specification names,
1 to 4; it names none for 0. -/
def varietyRemark : Nat → Option String
  | 1 => some "Using only one character type makes the password vulnerable."
  | 2 => some "Using two character types improves security."
  | 3 => some "Using three character types provides good security."
  | 4 => some allFourRemark
  | _ => none

/-- One remark for each absent class, in the order lowercase, uppercase,
numbers, special. -/
def missingClassRemarks (lower upper digit special : Bool) : List String :=
  (if lower then [] else ["Consider adding lowercase letters."])
    ++ (if upper then [] else ["Consider adding uppercase letters."])
    ++ (if digit then [] else ["Consider adding numbers."])
    ++ (if special then [] else ["Consider adding special characters (!@#$%^&*)."])

/-- The closing remark of each strength level. -/
def closingRemark : StrengthLevel → String
  | .VERY_WEAK => "This password can be cracked almost instantly."
  | .WEAK => "This password can be cracked quickly with modern hardware."
  | .MODERATE => "This password provides basic protection but could be stronger."
  | .STRONG => "This password provides good protection against brute-force attacks."
  | .VERY_STRONG =>
    "This password provides excellent protection against brute-force attacks."

/-- A non-negative finite double: a natural significand below 2 to the 53 times
a power of 2 with an exponent from -1074 to 971. -/
def isDouble (d : ℚ) : Prop :=
  ∃ (m : ℕ) (e : Int), m < 2 ^ 53 ∧ -1074 ≤ e ∧ e ≤ 971 ∧ d = m * 2 ^ e

/-- A number that is finite and lies between two rationals. -/
def JSNumber.inRange (a : JSNumber) (lo hi : ℚ) : Prop :=
  ∃ r : ℚ, a = JSNumber.finite r ∧ lo ≤ r ∧ r ≤ hi

/-- A number that is not below a rational: for it the test a < lo is false. -/
def JSNumber.atLeast (a : JSNumber) (lo : ℚ) : Prop :=
  a.lt (JSNumber.finite lo) = false

/-- An engine's Math.pow that never rounds past a double: its result is at least
every double that the exact power reaches, and at most every double that reaches
the exact power. -/
def FaithfulPow (mathPow : Nat → Nat → JSNumber) : Prop :=
  ∀ base exponent : Nat,
    (∀ lo : ℚ, isDouble lo → lo ≤ (base : ℚ) ^ exponent →
      (mathPow base exponent).atLeast lo) ∧
    (∀ hi : ℚ, isDouble hi → (base : ℚ) ^ exponent ≤ hi →
      (mathPow base exponent).inRange 0 hi)

/-- A number of seconds divided by each divisor in turn, every quotient rounded
to a double, as formatTime computes minutes, hours, days, years and millennia. -/
def dividedBy (s : JSNumber) (divisors : List ℚ) : JSNumber :=
  divisors.foldl JSNumber.div s

/-- Whether a remark starts with the words "Consider adding". -/
def isConsiderRemark (r : String) : Bool :=
  r.toList.take 15 == "Consider adding".toList

/-! ## Lemmas on the character classes -/

theorem regexTest_eq_true (cls : Nat → Bool) (s : JSString) :
    regexTest cls s = true ↔ ∃ c ∈ s, cls c = true := by
  simp [regexTest]

theorem regexTest_eq_false (cls : Nat → Bool) (s : JSString) :
    regexTest cls s = false ↔ ∀ c ∈ s, cls c = false := by
  simp [regexTest]

theorem isLowercase_iff (c : Nat) : isLowercase c = true ↔ 97 ≤ c ∧ c ≤ 122 := by
  simp [isLowercase]

theorem isUppercase_iff (c : Nat) : isUppercase c = true ↔ 65 ≤ c ∧ c ≤ 90 := by
  simp [isUppercase]

theorem isNumber_iff (c : Nat) : isNumber c = true ↔ 48 ≤ c ∧ c ≤ 57 := by
  simp [isNumber]

theorem isSpecial_iff (c : Nat) :
    isSpecial c = true ↔ ¬ (97 ≤ c ∧ c ≤ 122) ∧ ¬ (65 ≤ c ∧ c ≤ 90) ∧ ¬ (48 ≤ c ∧ c ≤ 57) := by
  simp only [isSpecial, isLowercase, isUppercase, isNumber, Bool.not_eq_true', Bool.or_eq_false_iff,
    decide_eq_false_iff_not]
  tauto

theorem regexTest_congr (cls : Nat → Bool) (s t : JSString) (h : ∀ c, c ∈ s ↔ c ∈ t) :
    regexTest cls s = regexTest cls t := by
  rw [Bool.eq_iff_iff, regexTest_eq_true, regexTest_eq_true]
  constructor
  · rintro ⟨c, hc, hcls⟩
    exact ⟨c, (h c).1 hc, hcls⟩
  · rintro ⟨c, hc, hcls⟩
    exact ⟨c, (h c).2 hc, hcls⟩

/-- Some class test succeeds on a string that has a code unit. -/
theorem some_class_of_ne_nil (s : JSString) (h : s ≠ []) :
    regexTest isLowercase s = true ∨ regexTest isUppercase s = true
      ∨ regexTest isNumber s = true ∨ regexTest isSpecial s = true := by
  cases s with
  | nil => exact absurd rfl h
  | cons c t =>
    by_cases hl : isLowercase c = true
    · exact Or.inl ((regexTest_eq_true _ _).2 ⟨c, by simp, hl⟩)
    · by_cases hu : isUppercase c = true
      · exact Or.inr (Or.inl ((regexTest_eq_true _ _).2 ⟨c, by simp, hu⟩))
      · by_cases hn : isNumber c = true
        · exact Or.inr (Or.inr (Or.inl ((regexTest_eq_true _ _).2 ⟨c, by simp, hn⟩)))
        · refine Or.inr (Or.inr (Or.inr ((regexTest_eq_true _ _).2 ⟨c, by simp, ?_⟩)))
          simp only [Bool.not_eq_true] at hl hu hn
          simp [isSpecial, hl, hu, hn]

/-! ## The fields of the result, one by one -/

theorem analyzePassword_length {pow : Nat → Nat → JSNumber} (p : JSString) : (analyzePassword pow p).length = p.length := rfl

theorem analyzePassword_hasLowercase {pow : Nat → Nat → JSNumber} (p : JSString) :
    (analyzePassword pow p).hasLowercase = regexTest isLowercase p := rfl

theorem analyzePassword_hasUppercase {pow : Nat → Nat → JSNumber} (p : JSString) :
    (analyzePassword pow p).hasUppercase = regexTest isUppercase p := rfl

theorem analyzePassword_hasNumbers {pow : Nat → Nat → JSNumber} (p : JSString) :
    (analyzePassword pow p).hasNumbers = regexTest isNumber p := rfl

theorem analyzePassword_hasSpecial {pow : Nat → Nat → JSNumber} (p : JSString) :
    (analyzePassword pow p).hasSpecial = regexTest isSpecial p := rfl

theorem analyzePassword_strength {pow : Nat → Nat → JSNumber} (p : JSString) :
    (analyzePassword pow p).strength = determineStrength (analyzePassword pow p).score := rfl

theorem analyzePassword_characterTypes {pow : Nat → Nat → JSNumber} (p : JSString) :
    (analyzePassword pow p).characterTypes
      = countTrue (analyzePassword pow p).hasLowercase (analyzePassword pow p).hasUppercase
          (analyzePassword pow p).hasNumbers (analyzePassword pow p).hasSpecial := by
  simp only [analyzePassword]
  cases regexTest isLowercase p <;> cases regexTest isUppercase p <;>
    cases regexTest isNumber p <;> cases regexTest isSpecial p <;> rfl

theorem analyzePassword_characterSetSize {pow : Nat → Nat → JSNumber} (p : JSString) :
    (analyzePassword pow p).characterSetSize
      = classSizeSum (analyzePassword pow p).hasLowercase (analyzePassword pow p).hasUppercase
          (analyzePassword pow p).hasNumbers (analyzePassword pow p).hasSpecial := by
  simp only [analyzePassword]
  cases regexTest isLowercase p <;> cases regexTest isUppercase p <;>
    cases regexTest isNumber p <;> cases regexTest isSpecial p <;> rfl

theorem analyzePassword_score {pow : Nat → Nat → JSNumber} (p : JSString) :
    (analyzePassword pow p).score
      = lengthContribution p.length + varietyContribution (analyzePassword pow p).characterTypes := by
  simp only [analyzePassword, lengthContribution, varietyContribution]
  split_ifs <;> norm_num

theorem countTrue_le (a b c d : Bool) : countTrue a b c d ≤ 4 := by
  cases a <;> cases b <;> cases c <;> cases d <;> decide

theorem lengthContribution_mono (m n : Nat) (h : m ≤ n) :
    lengthContribution m ≤ lengthContribution n := by
  unfold lengthContribution
  split_ifs <;> first | omega | norm_num

theorem lengthContribution_bounds (n : Nat) :
    0 ≤ lengthContribution n ∧ lengthContribution n ≤ 3 := by
  unfold lengthContribution
  split_ifs <;> norm_num

theorem varietyContribution_bounds (n : Nat) :
    0 ≤ varietyContribution n ∧ varietyContribution n ≤ 2 := by
  unfold varietyContribution
  split_ifs <;> norm_num

theorem characterSetSize_eq_zero_iff {pow : Nat → Nat → JSNumber} (p : JSString) :
    (analyzePassword pow p).characterSetSize = 0 ↔ (analyzePassword pow p).characterTypes = 0 := by
  rw [analyzePassword_characterSetSize, analyzePassword_characterTypes]
  cases (analyzePassword pow p).hasLowercase <;> cases (analyzePassword pow p).hasUppercase <;>
    cases (analyzePassword pow p).hasNumbers <;> cases (analyzePassword pow p).hasSpecial <;> decide

theorem characterTypes_pos_of_ne_nil {pow : Nat → Nat → JSNumber} (p : JSString) (h : p ≠ []) :
    1 ≤ (analyzePassword pow p).characterTypes := by
  rw [analyzePassword_characterTypes, analyzePassword_hasLowercase,
    analyzePassword_hasUppercase, analyzePassword_hasNumbers, analyzePassword_hasSpecial]
  rcases some_class_of_ne_nil p h with h1 | h1 | h1 | h1 <;> rw [h1] <;>
    simp only [countTrue, Bool.toNat_true] <;> omega

theorem characterTypes_nil {pow : Nat → Nat → JSNumber} : (analyzePassword pow []).characterTypes = 0 := rfl

theorem characterTypes_eq_zero_iff {pow : Nat → Nat → JSNumber} (p : JSString) :
    (analyzePassword pow p).characterTypes = 0 ↔ p = [] := by
  constructor
  · intro h0
    by_contra hne
    have := @characterTypes_pos_of_ne_nil pow p hne
    omega
  · intro h
    rw [h]
    exact characterTypes_nil

theorem score_nil {pow : Nat → Nat → JSNumber} : (analyzePassword pow []).score = 0 := by
  rw [analyzePassword_score, characterTypes_nil]
  norm_num [lengthContribution, varietyContribution]

theorem regexTest_of_all (cls : Nat → Bool) (p : JSString) (hne : p ≠ [])
    (h : ∀ c ∈ p, cls c = true) : regexTest cls p = true := by
  cases p with
  | nil => exact absurd rfl hne
  | cons c t => exact (regexTest_eq_true _ _).2 ⟨c, by simp, h c (by simp)⟩

/-- The four fields that depend on the flags only, once the flags are known. -/
theorem types_and_size_of_flags {pow : Nat → Nat → JSNumber} (p : JSString) (a b c d : Bool)
    (ha : regexTest isLowercase p = a) (hb : regexTest isUppercase p = b)
    (hc : regexTest isNumber p = c) (hd : regexTest isSpecial p = d) :
    (analyzePassword pow p).characterTypes = countTrue a b c d ∧
    (analyzePassword pow p).characterSetSize = classSizeSum a b c d := by
  rw [analyzePassword_characterTypes, analyzePassword_characterSetSize,
    analyzePassword_hasLowercase, analyzePassword_hasUppercase, analyzePassword_hasNumbers,
    analyzePassword_hasSpecial, ha, hb, hc, hd]
  exact ⟨rfl, rfl⟩

/-! ## Lemmas on the explanations -/

theorem generateExplanations_eq (length characterTypes : Nat) (l u n sp : Bool)
    (strength : StrengthLevel) :
    generateExplanations length characterTypes l u n sp strength
      = [lengthRemark length, (varietyRemark characterTypes).getD allFourRemark]
        ++ missingClassRemarks l u n sp ++ [closingRemark strength] := by
  have hlen : (if length < 8 then
        ([] : List String) ++ ["Password is too short. Use at least 8 characters."]
      else if length < 12 then [] ++ ["Password length is acceptable but could be longer."]
      else if length < 16 then [] ++ ["Good password length."]
      else [] ++ ["Excellent password length."]) = [lengthRemark length] := by
    unfold lengthRemark
    split_ifs <;> first | rfl | omega
  have hvar : ∀ xs : List String, (if characterTypes = 1 then
        xs ++ ["Using only one character type makes the password vulnerable."]
      else if characterTypes = 2 then xs ++ ["Using two character types improves security."]
      else if characterTypes = 3 then
        xs ++ ["Using three character types provides good security."]
      else xs ++ ["Using all four character types maximizes security."])
        = xs ++ [(varietyRemark characterTypes).getD allFourRemark] := by
    intro xs
    split_ifs with h1 h2 h3
    · rw [h1]; rfl
    · rw [h2]; rfl
    · rw [h3]; rfl
    · match characterTypes, h1, h2, h3 with
      | 0, _, _, _ => rfl
      | 1, h1, _, _ => exact absurd rfl h1
      | 2, _, h2, _ => exact absurd rfl h2
      | 3, _, _, h3 => exact absurd rfl h3
      | 4, _, _, _ => rfl
      | _ + 5, _, _, _ => rfl
  unfold generateExplanations
  simp only [hlen, hvar]
  cases l <;> cases u <;> cases n <;> cases sp <;> cases strength <;> rfl

theorem analyzePassword_explanations {pow : Nat → Nat → JSNumber} (p : JSString) :
    (analyzePassword pow p).explanations
      = [lengthRemark (analyzePassword pow p).length,
          (varietyRemark (analyzePassword pow p).characterTypes).getD allFourRemark]
        ++ missingClassRemarks (analyzePassword pow p).hasLowercase (analyzePassword pow p).hasUppercase
            (analyzePassword pow p).hasNumbers (analyzePassword pow p).hasSpecial
        ++ [closingRemark (analyzePassword pow p).strength] :=
  generateExplanations_eq _ _ _ _ _ _ _

theorem missingClassRemarks_length (l u n sp : Bool) :
    (missingClassRemarks l u n sp).length = countTrue (!l) (!u) (!n) (!sp) := by
  cases l <;> cases u <;> cases n <;> cases sp <;> rfl

theorem varietyRemark_getD_mem (t : Nat) :
    (varietyRemark t).getD allFourRemark ∈ varietyRemarks := by
  match t with
  | 0 => simp [varietyRemark, varietyRemarks]
  | 1 => simp [varietyRemark, varietyRemarks]
  | 2 => simp [varietyRemark, varietyRemarks]
  | 3 => simp [varietyRemark, varietyRemarks]
  | 4 => simp [varietyRemark, varietyRemarks]
  | _ + 5 => simp [varietyRemark, varietyRemarks]

theorem analyzePassword_totalCombinations {pow : Nat → Nat → JSNumber} (p : JSString) :
    (analyzePassword pow p).totalCombinations
      = if (analyzePassword pow p).characterSetSize > 0 then
          pow (analyzePassword pow p).characterSetSize (analyzePassword pow p).length
        else JSNumber.finite 0 := rfl

theorem strength_nil {pow : Nat → Nat → JSNumber} : (analyzePassword pow []).strength = StrengthLevel.VERY_WEAK := by
  rw [analyzePassword_strength, score_nil]
  norm_num [determineStrength]

/-! ## Lemmas on the rounding to doubles -/

theorem roundHalfEven_intCast (n : Int) : roundHalfEven (n : ℚ) = n := by
  simp [roundHalfEven]

theorem floor_le_roundHalfEven (y : ℚ) : ⌊y⌋ ≤ roundHalfEven y := by
  unfold roundHalfEven
  simp only []
  split_ifs <;> omega

theorem roundHalfEven_le_floor_succ (y : ℚ) : roundHalfEven y ≤ ⌊y⌋ + 1 := by
  unfold roundHalfEven
  simp only []
  split_ifs <;> omega

theorem roundHalfEven_mono (a b : ℚ) (h : a ≤ b) : roundHalfEven a ≤ roundHalfEven b := by
  have hf : ⌊a⌋ ≤ ⌊b⌋ := Int.floor_mono h
  rcases hf.lt_or_eq with hlt | heq
  · have h1 := roundHalfEven_le_floor_succ a
    have h2 := floor_le_roundHalfEven b
    omega
  · unfold roundHalfEven
    simp only [heq]
    split_ifs <;> first | omega | (exfalso; linarith)

theorem roundHalfEven_le_of_le (y : ℚ) (n : Int) (h : y ≤ n) : roundHalfEven y ≤ n := by
  have := roundHalfEven_mono y n h
  rwa [roundHalfEven_intCast] at this

theorem le_roundHalfEven_of_le (y : ℚ) (n : Int) (h : (n : ℚ) ≤ y) : n ≤ roundHalfEven y := by
  have := roundHalfEven_mono n y h
  rwa [roundHalfEven_intCast] at this

theorem binade_ge (x : ℚ) : -1022 ≤ binade x := le_max_right _ _

theorem lt_zpow_binade (x : ℚ) : x < 2 ^ (binade x + 1) := by
  have h : x < ((2 : ℕ) : ℚ) ^ (Int.log 2 x + 1) := Int.lt_zpow_succ_log_self (by norm_num) x
  have h2 : ((2 : ℕ) : ℚ) ^ (Int.log 2 x + 1) ≤ 2 ^ (binade x + 1) := by
    rw [Nat.cast_ofNat]
    exact zpow_le_zpow_right₀ (by norm_num) (add_le_add_right (le_max_left _ _) 1)
  exact lt_of_lt_of_le h h2

theorem binade_of_zpow_le (x : ℚ) (j : Int) (hj : -1022 ≤ j) (h : 2 ^ j ≤ x) :
    j ≤ binade x ∧ 2 ^ binade x ≤ x := by
  have hx : 0 < x := lt_of_lt_of_le (zpow_pos (by norm_num) j) h
  have hlog : j ≤ Int.log 2 x := by
    refine (Int.zpow_le_iff_le_log (by norm_num) hx).1 ?_
    rw [Nat.cast_ofNat]
    exact h
  have hb : binade x = Int.log 2 x := max_eq_left (le_trans hj hlog)
  refine ⟨hb ▸ hlog, ?_⟩
  rw [hb]
  have hlow : ((2 : ℕ) : ℚ) ^ Int.log 2 x ≤ x := Int.zpow_log_le_self (by norm_num) hx
  rwa [Nat.cast_ofNat] at hlow

theorem binade_mono (x y : ℚ) (hx : 0 < x) (h : x ≤ y) : binade x ≤ binade y :=
  max_le_max (Int.log_mono_right hx h) le_rfl

theorem ulp_pos (k : Int) : (0 : ℚ) < 2 ^ k := zpow_pos (by norm_num) k

theorem roundToGrid_zero : roundToGrid 0 = 0 := by
  simp [roundToGrid, roundHalfEven]

theorem roundToGrid_nonneg (x : ℚ) (hx : 0 ≤ x) : 0 ≤ roundToGrid x := by
  unfold roundToGrid
  have h0 : (0 : Int) ≤ roundHalfEven (x / 2 ^ (binade x - 52)) :=
    le_roundHalfEven_of_le _ 0 (by
      rw [Int.cast_zero]
      exact div_nonneg hx (ulp_pos _).le)
  exact mul_nonneg (by exact_mod_cast h0) (ulp_pos _).le

theorem roundToGrid_le (x : ℚ) : roundToGrid x ≤ 2 ^ (binade x + 1) := by
  unfold roundToGrid
  have hu := ulp_pos (binade x - 52)
  have hsplit : (2 : ℚ) ^ (binade x + 1) = 2 ^ (53 : Int) * 2 ^ (binade x - 52) := by
    rw [← zpow_add₀ (by norm_num)]
    congr 1
    ring
  have hle : x / 2 ^ (binade x - 52) ≤ ((2 ^ 53 : Int) : ℚ) := by
    rw [div_le_iff₀ hu]
    have := lt_zpow_binade x
    rw [hsplit] at this
    push_cast
    norm_num at this ⊢
    exact this.le
  have h := roundHalfEven_le_of_le _ _ hle
  rw [hsplit]
  refine mul_le_mul_of_nonneg_right ?_ hu.le
  have h2 : ((roundHalfEven (x / 2 ^ (binade x - 52)) : Int) : ℚ) ≤ ((2 ^ 53 : Int) : ℚ) := by
    exact_mod_cast h
  norm_num at h2 ⊢
  exact h2

theorem le_roundToGrid (x : ℚ) (j : Int) (hj : -1022 ≤ j) (h : 2 ^ j ≤ x) :
    2 ^ j ≤ roundToGrid x := by
  obtain ⟨hjk, hk⟩ := binade_of_zpow_le x j hj h
  have hu := ulp_pos (binade x - 52)
  have hsplit : (2 : ℚ) ^ (binade x) = 2 ^ (52 : Int) * 2 ^ (binade x - 52) := by
    rw [← zpow_add₀ (by norm_num)]
    congr 1
    ring
  have hle : ((2 ^ 52 : Int) : ℚ) ≤ x / 2 ^ (binade x - 52) := by
    rw [le_div_iff₀ hu]
    rw [hsplit] at hk
    push_cast
    norm_num at hk ⊢
    exact hk
  have h := le_roundHalfEven_of_le _ _ hle
  have h2 : ((2 ^ 52 : Int) : ℚ) ≤ ((roundHalfEven (x / 2 ^ (binade x - 52)) : Int) : ℚ) := by
    exact_mod_cast h
  calc (2 : ℚ) ^ j ≤ 2 ^ binade x := zpow_le_zpow_right₀ (by norm_num) hjk
    _ = 2 ^ (52 : Int) * 2 ^ (binade x - 52) := hsplit
    _ ≤ roundToGrid x := by
        unfold roundToGrid
        refine mul_le_mul_of_nonneg_right ?_ hu.le
        norm_num at h2 ⊢
        exact h2

theorem roundToGrid_mono (x y : ℚ) (hx : 0 ≤ x) (h : x ≤ y) : roundToGrid x ≤ roundToGrid y := by
  rcases hx.lt_or_eq with hpos | hzero
  · rcases (binade_mono x y hpos h).lt_or_eq with hlt | heq
    · have hky : binade y = Int.log 2 y := by
        unfold binade
        refine max_eq_left ?_
        by_contra hcon
        have : binade y = -1022 := max_eq_right (by omega)
        have := binade_ge x
        omega
      have hypos : 0 < y := lt_of_lt_of_le hpos h
      have h2 : (2 : ℚ) ^ binade y ≤ y := by
        rw [hky]
        have hlow : ((2 : ℕ) : ℚ) ^ Int.log 2 y ≤ y := Int.zpow_log_le_self (by norm_num) hypos
        rwa [Nat.cast_ofNat] at hlow
      calc roundToGrid x ≤ 2 ^ (binade x + 1) := roundToGrid_le x
        _ ≤ 2 ^ binade y := zpow_le_zpow_right₀ (by norm_num) (by omega)
        _ ≤ roundToGrid y := le_roundToGrid y _ (binade_ge y) h2
    · unfold roundToGrid
      rw [heq]
      have hu := ulp_pos (binade y - 52)
      refine mul_le_mul_of_nonneg_right ?_ hu.le
      have := roundHalfEven_mono (x / 2 ^ (binade y - 52)) (y / 2 ^ (binade y - 52))
        (div_le_div_of_nonneg_right h hu.le)
      exact_mod_cast this
  · rw [← hzero, roundToGrid_zero]
    exact roundToGrid_nonneg y (hzero ▸ h)


theorem roundDouble_of_nonneg (x : ℚ) (hx : 0 ≤ x) :
    roundDouble x
      = if roundToGrid x < 2 ^ 1024 then JSNumber.finite (roundToGrid x) else JSNumber.infinity := by
  unfold roundDouble
  rw [if_neg (not_lt.2 hx)]

theorem roundDouble_mono (x y : ℚ) (hx : 0 ≤ x) (h : x ≤ y) :
    (roundDouble y).lt (roundDouble x) = false := by
  rw [roundDouble_of_nonneg x hx, roundDouble_of_nonneg y (le_trans hx h)]
  have hg := roundToGrid_mono x y hx h
  split_ifs with h1 h2 h2
  · simp only [JSNumber.lt, decide_eq_false_iff_not, not_lt]
    exact hg
  · exact absurd (lt_of_le_of_lt hg h1) h2
  · rfl
  · rfl

theorem binade_lt_of_lt_zpow (x : ℚ) (hx : 0 < x) (j : Int) (hj : -1022 < j) (h : x < 2 ^ j) :
    binade x < j := by
  have hlog : Int.log 2 x < j := by
    refine (Int.lt_zpow_iff_log_lt (by norm_num) hx).1 ?_
    rw [Nat.cast_ofNat]
    exact h
  exact max_lt hlog hj

theorem roundToGrid_of_isDouble (d : ℚ) (h : isDouble d) :
    roundToGrid d = d ∧ d < 2 ^ 1024 := by
  obtain ⟨m, e, hm, he1, he2, rfl⟩ := h
  have hmq : (m : ℚ) < 2 ^ (53 : Int) := by
    have : (m : ℚ) < ((2 ^ 53 : ℕ) : ℚ) := by exact_mod_cast hm
    norm_num at this ⊢
    exact this
  have hbound : ∀ j : Int, e + 53 ≤ j → (m : ℚ) * 2 ^ e < 2 ^ j := by
    intro j hj
    calc (m : ℚ) * 2 ^ e < 2 ^ (53 : Int) * 2 ^ e :=
          mul_lt_mul_of_pos_right hmq (ulp_pos e)
      _ = 2 ^ (53 + e) := (zpow_add₀ (by norm_num) _ _).symm
      _ ≤ 2 ^ j := zpow_le_zpow_right₀ (by norm_num) (by omega)
  refine ⟨?_, ?_⟩
  · rcases Nat.eq_zero_or_pos m with h0 | hpos
    · rw [h0]
      simp [roundToGrid_zero]
    · have hd : (0 : ℚ) < m * 2 ^ e := mul_pos (by exact_mod_cast hpos) (ulp_pos e)
      have hk : binade ((m : ℚ) * 2 ^ e) < e + 53 :=
        binade_lt_of_lt_zpow _ hd _ (by omega) (hbound _ le_rfl)
      unfold roundToGrid
      generalize binade ((m : ℚ) * 2 ^ e) = k at hk
      have ht : 0 ≤ e - (k - 52) := by omega
      have hq : (m : ℚ) * 2 ^ e / 2 ^ (k - 52)
          = ((((m : Int) * 2 ^ (e - (k - 52)).toNat : Int)) : ℚ) := by
        rw [div_eq_iff (ulp_pos _).ne']
        push_cast
        rw [mul_assoc, ← zpow_natCast, Int.toNat_of_nonneg ht, ← zpow_add₀ (by norm_num)]
        congr 2
        ring
      rw [hq, roundHalfEven_intCast]
      push_cast
      rw [mul_assoc, ← zpow_natCast, Int.toNat_of_nonneg ht, ← zpow_add₀ (by norm_num)]
      congr 2
      ring
  · have := hbound 1024 (by omega)
    norm_num at this ⊢
    exact this

theorem roundDouble_of_isDouble (d : ℚ) (h : isDouble d) : roundDouble d = JSNumber.finite d := by
  obtain ⟨hg, hlt⟩ := roundToGrid_of_isDouble d h
  have hd : 0 ≤ d := by
    obtain ⟨m, e, -, -, -, rfl⟩ := h
    exact mul_nonneg (Nat.cast_nonneg m) (ulp_pos e).le
  rw [roundDouble_of_nonneg d hd, hg, if_pos hlt]

theorem isDouble_natCast (n : ℕ) (h : n < 2 ^ 53) : isDouble n :=
  ⟨n, 0, h, by norm_num, by norm_num, by simp⟩

theorem roundDouble_eval (x : ℚ) (k n : Int) (hk : -1022 ≤ k) (h1 : 2 ^ k ≤ x)
    (h2 : x < 2 ^ (k + 1)) (hn : roundHalfEven (x / 2 ^ (k - 52)) = n)
    (hfin : (n : ℚ) * 2 ^ (k - 52) < 2 ^ 1024) :
    roundDouble x = JSNumber.finite (n * 2 ^ (k - 52)) := by
  have hx : 0 < x := lt_of_lt_of_le (ulp_pos k) h1
  have hb1 := (binade_of_zpow_le x k hk h1).1
  have hb2 := binade_lt_of_lt_zpow x hx (k + 1) (by omega) h2
  have hb : binade x = k := by omega
  rw [roundDouble_of_nonneg x hx.le]
  unfold roundToGrid
  rw [hb, hn, if_pos hfin]

theorem roundHalfEven_down (y : ℚ) (f : Int) (h1 : (f : ℚ) ≤ y) (h2 : y < f + 1 / 2) :
    roundHalfEven y = f := by
  have hf : ⌊y⌋ = f := Int.floor_eq_iff.2 ⟨h1, by linarith⟩
  unfold roundHalfEven
  simp only [hf]
  rw [if_pos (by linarith)]

theorem roundHalfEven_up (y : ℚ) (f : Int) (h1 : (f : ℚ) + 1 / 2 < y) (h2 : y < f + 1) :
    roundHalfEven y = f + 1 := by
  have hf : ⌊y⌋ = f := Int.floor_eq_iff.2 ⟨by linarith, h2⟩
  unfold roundHalfEven
  simp only [hf]
  rw [if_neg (by linarith), if_pos (by linarith)]

theorem roundDouble_infinity (x : ℚ) (h : 2 ^ 1024 ≤ x) : roundDouble x = JSNumber.infinity := by
  have h1 : (2 : ℚ) ^ (1024 : Int) ≤ x := by
    norm_num at h ⊢
    exact h
  have hx : 0 ≤ x := le_trans (ulp_pos 1024).le h1
  have hg := le_roundToGrid x 1024 (by norm_num) h1
  rw [roundDouble_of_nonneg x hx, if_neg]
  norm_num at hg ⊢
  exact hg

theorem isDouble_le_pred (s : ℚ) (hs : isDouble s) (k : Int) (n : ℕ) (hn : 2 ^ 52 < n)
    (hlt : s < n * 2 ^ (k - 52)) : s ≤ ((n : ℚ) - 1) * 2 ^ (k - 52) := by
  obtain ⟨m, e, hm, -, -, rfl⟩ := hs
  have hu := ulp_pos (k - 52)
  have hn1 : (2 : ℚ) ^ (52 : Int) ≤ (n : ℚ) - 1 := by
    have h3 : (2 : ℚ) ^ (52 : ℕ) + 1 ≤ (n : ℚ) := by exact_mod_cast Nat.succ_le_of_lt hn
    have h4 : (2 : ℚ) ^ (52 : Int) = 2 ^ (52 : ℕ) := by norm_num
    rw [h4]
    linarith
  rcases le_or_lt (k - 52) e with hge | hlt2
  · have ht : 0 ≤ e - (k - 52) := by omega
    have hs : (m : ℚ) * 2 ^ e = ((m * 2 ^ (e - (k - 52)).toNat : ℕ) : ℚ) * 2 ^ (k - 52) := by
      push_cast
      rw [mul_assoc, ← zpow_natCast, Int.toNat_of_nonneg ht, ← zpow_add₀ (by norm_num)]
      congr 2
      ring
    rw [hs] at hlt ⊢
    have hlt3 : ((m * 2 ^ (e - (k - 52)).toNat : ℕ) : ℚ) < n := lt_of_mul_lt_mul_right hlt hu.le
    have hlt4 : m * 2 ^ (e - (k - 52)).toNat < n := by exact_mod_cast hlt3
    have hle : ((m * 2 ^ (e - (k - 52)).toNat : ℕ) : ℚ) ≤ (n : ℚ) - 1 := by
      have : ((m * 2 ^ (e - (k - 52)).toNat + 1 : ℕ) : ℚ) ≤ (n : ℚ) := by exact_mod_cast hlt4
      push_cast at this ⊢
      linarith
    exact mul_le_mul_of_nonneg_right hle hu.le
  · have hmq : (m : ℚ) ≤ 2 ^ (53 : Int) := by
      have : (m : ℚ) < ((2 ^ 53 : ℕ) : ℚ) := by exact_mod_cast hm
      norm_num at this ⊢
      exact this.le
    calc (m : ℚ) * 2 ^ e ≤ 2 ^ (53 : Int) * 2 ^ e :=
          mul_le_mul_of_nonneg_right hmq (ulp_pos e).le
      _ = 2 ^ (53 + e) := (zpow_add₀ (by norm_num) _ _).symm
      _ ≤ 2 ^ (52 + (k - 52)) := zpow_le_zpow_right₀ (by norm_num) (by omega)
      _ = 2 ^ (52 : Int) * 2 ^ (k - 52) := zpow_add₀ (by norm_num) _ _
      _ ≤ ((n : ℚ) - 1) * 2 ^ (k - 52) := mul_le_mul_of_nonneg_right hn1 hu.le

theorem JSNumber.div_inRange (a : JSNumber) (lo hi c dl dh : ℚ) (ha : a.inRange lo hi)
    (hlo : 0 ≤ lo) (hc : 0 < c) (hdl : roundDouble (lo / c) = JSNumber.finite dl)
    (hdh : roundDouble (hi / c) = JSNumber.finite dh) : (a.div c).inRange dl dh := by
  obtain ⟨r, rfl, h1, h2⟩ := ha
  have m1 := roundDouble_mono (lo / c) (r / c) (div_nonneg hlo hc.le)
    (div_le_div_of_nonneg_right h1 hc.le)
  have m2 := roundDouble_mono (r / c) (hi / c) (div_nonneg (le_trans hlo h1) hc.le)
    (div_le_div_of_nonneg_right h2 hc.le)
  rw [hdl] at m1
  rw [hdh] at m2
  show (roundDouble (r / c)).inRange dl dh
  cases hrd : roundDouble (r / c) with
  | finite v =>
    rw [hrd] at m1 m2
    simp only [JSNumber.lt, decide_eq_false_iff_not, not_lt] at m1 m2
    exact ⟨v, rfl, m1, m2⟩
  | infinity =>
    rw [hrd] at m2
    simp [JSNumber.lt] at m2
  | negInfinity =>
    rw [hrd] at m1
    simp [JSNumber.lt] at m1

theorem JSNumber.div_atLeast (a : JSNumber) (lo c dl : ℚ) (ha : a.atLeast lo)
    (hlo : 0 ≤ lo) (hc : 0 < c) (hdl : roundDouble (lo / c) = JSNumber.finite dl) :
    (a.div c).atLeast dl := by
  cases a with
  | finite r =>
    have h1 : lo ≤ r := by
      simpa [JSNumber.atLeast, JSNumber.lt] using ha
    have m1 := roundDouble_mono (lo / c) (r / c) (div_nonneg hlo hc.le)
      (div_le_div_of_nonneg_right h1 hc.le)
    rw [hdl] at m1
    exact m1
  | infinity => rfl
  | negInfinity => simp [JSNumber.atLeast, JSNumber.lt] at ha

theorem roundHalfEven_grid_bounds (x : ℚ) (hx : 0 ≤ x) :
    0 ≤ roundHalfEven (x / 2 ^ (binade x - 52))
      ∧ roundHalfEven (x / 2 ^ (binade x - 52)) ≤ 2 ^ 53 := by
  have hu := ulp_pos (binade x - 52)
  refine ⟨le_roundHalfEven_of_le _ 0 (by rw [Int.cast_zero]; exact div_nonneg hx hu.le), ?_⟩
  have hsplit : (2 : ℚ) ^ (binade x + 1) = 2 ^ (53 : Int) * 2 ^ (binade x - 52) := by
    rw [← zpow_add₀ (by norm_num)]
    congr 1
    ring
  have hle : x / 2 ^ (binade x - 52) ≤ ((2 ^ 53 : Int) : ℚ) := by
    rw [div_le_iff₀ hu]
    have := lt_zpow_binade x
    rw [hsplit] at this
    push_cast
    norm_num at this ⊢
    exact this.le
  exact roundHalfEven_le_of_le _ _ hle

theorem binade_le_of_roundToGrid_lt (x : ℚ) (j : Int) (hj : 0 < j)
    (h : roundToGrid x < 2 ^ j) : binade x < j := by
  by_contra hcon
  have hk : j ≤ binade x := not_lt.1 hcon
  have hlog : binade x = Int.log 2 x := by
    unfold binade at hk ⊢
    refine max_eq_left ?_
    by_contra h2
    rw [max_eq_right (by omega)] at hk
    omega
  have hx : 0 < x := by
    by_contra h0
    rw [hlog, Int.log_of_right_le_zero 2 (not_lt.1 h0)] at hk
    omega
  have hlow : ((2 : ℕ) : ℚ) ^ Int.log 2 x ≤ x := Int.zpow_log_le_self (by norm_num) hx
  rw [Nat.cast_ofNat, ← hlog] at hlow
  have hg := le_roundToGrid x (binade x) (binade_ge x) hlow
  have h2 : (2 : ℚ) ^ j ≤ 2 ^ binade x := zpow_le_zpow_right₀ (by norm_num) hk
  linarith

/-- What the rounding of a non-negative rational returns, when finite, is a
double. -/
theorem isDouble_of_roundDouble (x d : ℚ) (hx : 0 ≤ x) (h : roundDouble x = JSNumber.finite d) :
    isDouble d := by
  rw [roundDouble_of_nonneg x hx] at h
  split_ifs at h with hfin
  rw [JSNumber.finite.injEq] at h
  subst h
  obtain ⟨hn0, hn1⟩ := roundHalfEven_grid_bounds x hx
  have hk1 := binade_ge x
  have hk2 : binade x < 1024 :=
    binade_le_of_roundToGrid_lt x 1024 (by norm_num) (by norm_num at hfin ⊢; exact hfin)
  rcases hn1.lt_or_eq with hlt | heq
  · refine ⟨(roundHalfEven (x / 2 ^ (binade x - 52))).toNat, binade x - 52, ?_, by omega,
      by omega, ?_⟩
    · have : ((roundHalfEven (x / 2 ^ (binade x - 52))).toNat : Int) < 2 ^ 53 := by
        rw [Int.toNat_of_nonneg hn0]
        exact hlt
      exact_mod_cast this
    · unfold roundToGrid
      congr 1
      have : (((roundHalfEven (x / 2 ^ (binade x - 52))).toNat : Int) : ℚ)
          = (roundHalfEven (x / 2 ^ (binade x - 52)) : ℚ) := by
        rw [Int.toNat_of_nonneg hn0]
      rw [← this]
      norm_cast
  · have hg : roundToGrid x = 2 ^ (binade x + 1) := by
      unfold roundToGrid
      rw [heq]
      have hsplit : (2 : ℚ) ^ (binade x + 1) = 2 ^ (53 : Int) * 2 ^ (binade x - 52) := by
        rw [← zpow_add₀ (by norm_num)]
        congr 1
        ring
      rw [hsplit]
      norm_num
    have hk3 : binade x + 1 < 1024 := by
      by_contra hcon
      have : (2 : ℚ) ^ (1024 : Int) ≤ 2 ^ (binade x + 1) :=
        zpow_le_zpow_right₀ (by norm_num) (by omega)
      rw [hg] at hfin
      norm_num at this hfin
      linarith
    refine ⟨2 ^ 52, binade x - 51, by norm_num, by omega, by omega, ?_⟩
    rw [hg]
    have hsplit : (2 : ℚ) ^ (binade x + 1) = 2 ^ (52 : Int) * 2 ^ (binade x - 51) := by
      rw [← zpow_add₀ (by norm_num)]
      congr 1
      ring
    rw [hsplit]
    norm_num

/-! ## Lemmas on ranges of numbers -/

theorem isDouble_nonneg (d : ℚ) (h : isDouble d) : 0 ≤ d := by
  obtain ⟨m, e, -, -, -, rfl⟩ := h
  exact mul_nonneg (Nat.cast_nonneg m) (ulp_pos e).le

theorem JSNumber.finite_lt_finite (a b : ℚ) :
    (JSNumber.finite a).lt (JSNumber.finite b) = decide (a < b) := rfl

theorem JSNumber.atLeast_finite (r lo : ℚ) : (JSNumber.finite r).atLeast lo ↔ lo ≤ r := by
  simp [JSNumber.atLeast, JSNumber.lt]

theorem JSNumber.atLeast_mono (a : JSNumber) (lo lo2 : ℚ) (ha : a.atLeast lo) (h : lo2 ≤ lo) :
    a.atLeast lo2 := by
  cases a with
  | finite r =>
    rw [JSNumber.atLeast_finite] at ha ⊢
    exact le_trans h ha
  | infinity => rfl
  | negInfinity => simp [JSNumber.atLeast, JSNumber.lt] at ha

theorem JSNumber.inRange_mono (a : JSNumber) (lo hi lo2 hi2 : ℚ) (ha : a.inRange lo hi)
    (h1 : lo2 ≤ lo) (h2 : hi ≤ hi2) : a.inRange lo2 hi2 := by
  obtain ⟨r, hr, h3, h4⟩ := ha
  exact ⟨r, hr, le_trans h1 h3, le_trans h4 h2⟩

theorem JSNumber.lt_of_inRange (a : JSNumber) (lo hi c : ℚ) (ha : a.inRange lo hi)
    (h : hi < c) : a.lt (JSNumber.finite c) = true := by
  obtain ⟨r, rfl, -, h4⟩ := ha
  simp only [JSNumber.lt, decide_eq_true_eq]
  exact lt_of_le_of_lt h4 h

theorem JSNumber.atLeast_of_inRange (a : JSNumber) (lo hi : ℚ) (ha : a.inRange lo hi) :
    a.atLeast lo := by
  obtain ⟨r, rfl, h3, -⟩ := ha
  exact (JSNumber.atLeast_finite r lo).2 h3

theorem roundDouble_inRange (x lo hi : ℚ) (hlo : isDouble lo) (hhi : isDouble hi)
    (h1 : lo ≤ x) (h2 : x ≤ hi) : (roundDouble x).inRange lo hi := by
  have m1 := roundDouble_mono lo x (isDouble_nonneg lo hlo) h1
  have m2 := roundDouble_mono x hi (le_trans (isDouble_nonneg lo hlo) h1) h2
  rw [roundDouble_of_isDouble lo hlo] at m1
  rw [roundDouble_of_isDouble hi hhi] at m2
  cases hrd : roundDouble x with
  | finite v =>
    rw [hrd] at m1 m2
    simp only [JSNumber.lt, decide_eq_false_iff_not, not_lt] at m1 m2
    exact ⟨v, rfl, m1, m2⟩
  | infinity =>
    rw [hrd] at m2
    simp [JSNumber.lt] at m2
  | negInfinity =>
    rw [hrd] at m1
    simp [JSNumber.lt] at m1

theorem isDouble_zero : isDouble 0 := ⟨0, 0, by norm_num, by norm_num, by norm_num, by simp⟩

theorem JSNumber.inRange_div (a : JSNumber) (lo hi c dh : ℚ) (ha : a.inRange lo hi)
    (hlo : 0 ≤ lo) (hc : 0 < c) (hd : isDouble dh) (h : hi ≤ c * dh) :
    (a.div c).inRange 0 dh := by
  obtain ⟨r, rfl, h1, h2⟩ := ha
  refine roundDouble_inRange (r / c) 0 dh isDouble_zero hd
    (div_nonneg (le_trans hlo h1) hc.le) ?_
  rw [div_le_iff₀ hc]
  linarith

theorem JSNumber.atLeast_div (a : JSNumber) (lo c dl : ℚ) (ha : a.atLeast lo) (hc : 0 < c)
    (hd : isDouble dl) (h : c * dl ≤ lo) : (a.div c).atLeast dl := by
  have hdl0 := isDouble_nonneg dl hd
  refine JSNumber.div_atLeast a (c * dl) c dl (JSNumber.atLeast_mono a lo _ ha h)
    (mul_nonneg hc.le hdl0) hc ?_
  rw [mul_div_cancel_left₀ dl hc.ne']
  exact roundDouble_of_isDouble dl hd

theorem roundDouble_zero : roundDouble 0 = JSNumber.finite 0 :=
  roundDouble_of_isDouble 0 isDouble_zero

/-! ## Lemmas on the chain of divisions of formatTime -/

theorem dividedBy_nil (a : JSNumber) : dividedBy a [] = a := rfl

theorem dividedBy_cons (a : JSNumber) (c : ℚ) (l : List ℚ) :
    dividedBy a (c :: l) = dividedBy (a.div c) l := rfl

theorem JSNumber.div_finite (q c : ℚ) : (JSNumber.finite q).div c = roundDouble (q / c) := rfl

theorem atLeast_minutes (a : JSNumber) (h : a.atLeast 3600) :
    (dividedBy a [60]).atLeast 60 :=
  JSNumber.atLeast_div a 3600 60 60 h (by norm_num)
    (by exact_mod_cast isDouble_natCast 60 (by norm_num)) (by norm_num)

theorem atLeast_hours (a : JSNumber) (h : a.atLeast 86400) :
    (dividedBy a [60, 60]).atLeast 24 := by
  have h1 : (a.div 60).atLeast 1440 :=
    JSNumber.atLeast_div a 86400 60 1440 h (by norm_num)
      (by exact_mod_cast isDouble_natCast 1440 (by norm_num)) (by norm_num)
  exact JSNumber.atLeast_div _ 1440 60 24 h1 (by norm_num)
    (by exact_mod_cast isDouble_natCast 24 (by norm_num)) (by norm_num)

theorem atLeast_days (a : JSNumber) (h : a.atLeast 31536000) :
    (dividedBy a [60, 60, 24]).atLeast 365 := by
  have h1 : (a.div 60).atLeast 525600 :=
    JSNumber.atLeast_div a 31536000 60 525600 h (by norm_num)
      (by exact_mod_cast isDouble_natCast 525600 (by norm_num)) (by norm_num)
  have h2 : ((a.div 60).div 60).atLeast 8760 :=
    JSNumber.atLeast_div _ 525600 60 8760 h1 (by norm_num)
      (by exact_mod_cast isDouble_natCast 8760 (by norm_num)) (by norm_num)
  exact JSNumber.atLeast_div _ 8760 24 365 h2 (by norm_num)
    (by exact_mod_cast isDouble_natCast 365 (by norm_num)) (by norm_num)

theorem atLeast_years (a : JSNumber) (h : a.atLeast 31536000000) :
    (dividedBy a [60, 60, 24, 365]).atLeast 1000 := by
  have h1 : (a.div 60).atLeast 525600000 :=
    JSNumber.atLeast_div a 31536000000 60 525600000 h (by norm_num)
      (by exact_mod_cast isDouble_natCast 525600000 (by norm_num)) (by norm_num)
  have h2 : ((a.div 60).div 60).atLeast 8760000 :=
    JSNumber.atLeast_div _ 525600000 60 8760000 h1 (by norm_num)
      (by exact_mod_cast isDouble_natCast 8760000 (by norm_num)) (by norm_num)
  have h3 : (((a.div 60).div 60).div 24).atLeast 365000 :=
    JSNumber.atLeast_div _ 8760000 24 365000 h2 (by norm_num)
      (by exact_mod_cast isDouble_natCast 365000 (by norm_num)) (by norm_num)
  exact JSNumber.atLeast_div _ 365000 365 1000 h3 (by norm_num)
    (by exact_mod_cast isDouble_natCast 1000 (by norm_num)) (by norm_num)

/-- A double below 3600 is at most the double before 3600, and its sixtieth
rounds to at most the double before 60. -/
theorem lt_minutes (s : ℚ) (hs : isDouble s) (h : s < 3600) :
    (dividedBy (JSNumber.finite s) [60]).lt (JSNumber.finite 60) = true := by
  have hp := isDouble_le_pred s hs 11 7916483719987200 (by norm_num) (by norm_num; exact h)
  have h0 : (JSNumber.finite s).inRange 0 _ := ⟨s, rfl, isDouble_nonneg s hs, hp⟩
  have h1 := JSNumber.inRange_div _ _ _ 60 (((8444249301319679 : ℕ) : ℚ) * 2 ^ (-47 : Int)) h0 le_rfl (by norm_num)
    ⟨8444249301319679, -47, by norm_num, by norm_num, by norm_num, by norm_num⟩ (by norm_num)
  exact JSNumber.lt_of_inRange _ _ _ 60 h1 (by norm_num)

theorem lt_hours (s : ℚ) (hs : isDouble s) (h : s < 86400) :
    (dividedBy (JSNumber.finite s) [60, 60]).lt (JSNumber.finite 24) = true := by
  have hp := isDouble_le_pred s hs 16 5937362789990400 (by norm_num) (by norm_num; exact h)
  have h0 : (JSNumber.finite s).inRange 0 _ := ⟨s, rfl, isDouble_nonneg s hs, hp⟩
  have h1 := JSNumber.inRange_div _ _ _ 60 (((6333186975989759 : ℕ) : ℚ) * 2 ^ (-42 : Int)) h0 le_rfl (by norm_num)
    ⟨6333186975989759, -42, by norm_num, by norm_num, by norm_num, by norm_num⟩ (by norm_num)
  have h2 := JSNumber.inRange_div _ _ _ 60 (((6755399441055743 : ℕ) : ℚ) * 2 ^ (-48 : Int)) h1 le_rfl (by norm_num)
    ⟨6755399441055743, -48, by norm_num, by norm_num, by norm_num, by norm_num⟩ (by norm_num)
  exact JSNumber.lt_of_inRange _ _ _ 24 h2 (by norm_num)

/-- The sixtieth of the double before 31536000 lies between two doubles and
rounds to the lower one, the double before 525600. -/
theorem roundDouble_before_year :
    roundDouble ((((8465380540416000 : ℕ) : ℚ) - 1) * 2 ^ ((24 : Int) - 52) / 60)
      = JSNumber.finite (((4514869621555199 : Int) : ℚ) * 2 ^ ((19 : Int) - 52)) :=
  roundDouble_eval _ 19 4514869621555199 (by norm_num) (by norm_num) (by norm_num)
    (roundHalfEven_down _ _ (by norm_num) (by norm_num)) (by norm_num)

/-- The sixtieth of the double before 525600000 rounds to the double before
8760000. -/
theorem roundDouble_before_millennium :
    roundDouble ((((8818104729599999 : ℕ) : ℚ) * 2 ^ (-24 : Int)) / 60)
      = JSNumber.finite (((4702989189119999 : Int) : ℚ) * 2 ^ ((23 : Int) - 52)) :=
  roundDouble_eval _ 23 4702989189119999 (by norm_num) (by norm_num) (by norm_num)
    (roundHalfEven_down _ _ (by norm_num) (by norm_num)) (by norm_num)

theorem roundDouble_zero_div (c : ℚ) : roundDouble (0 / c) = JSNumber.finite 0 := by
  rw [zero_div]
  exact roundDouble_zero

theorem lt_days (s : ℚ) (hs : isDouble s) (h : s < 31536000) :
    (dividedBy (JSNumber.finite s) [60, 60, 24]).lt (JSNumber.finite 365) = true := by
  have hp := isDouble_le_pred s hs 24 8465380540416000 (by norm_num) (by norm_num; exact h)
  have h0 : (JSNumber.finite s).inRange 0 _ := ⟨s, rfl, isDouble_nonneg s hs, hp⟩
  have h1 := JSNumber.div_inRange _ _ _ 60 _ _ h0 le_rfl (by norm_num)
    (roundDouble_zero_div 60) roundDouble_before_year
  have h2 := JSNumber.inRange_div _ _ _ 60 (((4815860929658879 : ℕ) : ℚ) * 2 ^ (-39 : Int)) h1 le_rfl (by norm_num)
    ⟨4815860929658879, -39, by norm_num, by norm_num, by norm_num, by norm_num⟩ (by norm_num)
  have h3 := JSNumber.inRange_div _ _ _ 24 (((6421147906211839 : ℕ) : ℚ) * 2 ^ (-44 : Int)) h2 le_rfl (by norm_num)
    ⟨6421147906211839, -44, by norm_num, by norm_num, by norm_num, by norm_num⟩ (by norm_num)
  exact JSNumber.lt_of_inRange _ _ _ 365 h3 (by norm_num)

theorem lt_years (s : ℚ) (hs : isDouble s) (h : s < 31536000000) :
    (dividedBy (JSNumber.finite s) [60, 60, 24, 365]).lt (JSNumber.finite 1000) = true := by
  have hp := isDouble_le_pred s hs 34 8266973184000000 (by norm_num) (by norm_num; exact h)
  have h0 : (JSNumber.finite s).inRange 0 _ := ⟨s, rfl, isDouble_nonneg s hs, hp⟩
  have h1 := JSNumber.inRange_div _ _ _ 60 (((8818104729599999 : ℕ) : ℚ) * 2 ^ (-24 : Int)) h0 le_rfl (by norm_num)
    ⟨8818104729599999, -24, by norm_num, by norm_num, by norm_num, by norm_num⟩ (by norm_num)
  have h2 := JSNumber.div_inRange _ _ _ 60 _ _ h1 le_rfl (by norm_num)
    (roundDouble_zero_div 60) roundDouble_before_millennium
  have h3 := JSNumber.inRange_div _ _ _ 24 (((6270652252159999 : ℕ) : ℚ) * 2 ^ (-34 : Int)) h2 le_rfl (by norm_num)
    ⟨6270652252159999, -34, by norm_num, by norm_num, by norm_num, by norm_num⟩ (by norm_num)
  have h4 := JSNumber.inRange_div _ _ _ 365 (((8796093022207999 : ℕ) : ℚ) * 2 ^ (-43 : Int)) h3 le_rfl (by norm_num)
    ⟨8796093022207999, -43, by norm_num, by norm_num, by norm_num, by norm_num⟩ (by norm_num)
  exact JSNumber.lt_of_inRange _ _ _ 1000 h4 (by norm_num)

/-! ## Lemmas on the formatting of times -/

theorem formatNumber_of_lt (L : Int → String) (x : ℚ) (h : x < 1000) :
    formatNumber L (JSNumber.finite x) = numberToString (mathRound x) := by
  simp only [formatNumber, if_pos h]

theorem formatTime_lt_one (L : Int → String) (s : ℚ) (h : s < 1) :
    formatTime L (JSNumber.finite s) = "Less than 1 second" := by
  unfold formatTime
  rw [if_pos (by simp only [JSNumber.lt, decide_eq_true_eq]; exact h)]

theorem formatTime_seconds (L : Int → String) (s : ℚ) (h1 : 1 ≤ s) (h2 : s < 60) :
    formatTime L (JSNumber.finite s)
      = formatNumber L (JSNumber.finite s) ++ " second"
        ++ (if JSNumber.finite s ≠ JSNumber.finite 1 then "s" else "") := by
  unfold formatTime
  rw [if_neg (by simp only [JSNumber.lt, decide_eq_true_eq, not_lt]; exact h1),
    if_pos (by simp only [JSNumber.lt, decide_eq_true_eq]; exact h2)]

theorem formatTime_minutes (L : Int → String) (a : JSNumber) (h1 : a.atLeast 60)
    (h2 : (dividedBy a [60]).lt (JSNumber.finite 60) = true) :
    formatTime L a
      = formatNumber L (dividedBy a [60]) ++ " minute"
        ++ (if dividedBy a [60] ≠ JSNumber.finite 1 then "s" else "") := by
  have t1 : a.lt (JSNumber.finite 1) = false := JSNumber.atLeast_mono a 60 1 h1 (by norm_num)
  have t2 : a.lt (JSNumber.finite 60) = false := h1
  have t3 : (a.div 60).lt (JSNumber.finite 60) = true := h2
  unfold formatTime
  simp only [t1, t2, t3, Bool.false_eq_true, if_false, if_true]
  rfl

theorem formatTime_hours (L : Int → String) (a : JSNumber) (h1 : a.atLeast 3600)
    (h2 : (dividedBy a [60, 60]).lt (JSNumber.finite 24) = true) :
    formatTime L a
      = formatNumber L (dividedBy a [60, 60]) ++ " hour"
        ++ (if dividedBy a [60, 60] ≠ JSNumber.finite 1 then "s" else "") := by
  have t1 : a.lt (JSNumber.finite 1) = false := JSNumber.atLeast_mono a 3600 1 h1 (by norm_num)
  have t2 : a.lt (JSNumber.finite 60) = false := JSNumber.atLeast_mono a 3600 60 h1 (by norm_num)
  have t3 : (a.div 60).lt (JSNumber.finite 60) = false := atLeast_minutes a h1
  have t4 : ((a.div 60).div 60).lt (JSNumber.finite 24) = true := h2
  unfold formatTime
  simp only [t1, t2, t3, t4, Bool.false_eq_true, if_false, if_true]
  rfl

theorem formatTime_days (L : Int → String) (a : JSNumber) (h1 : a.atLeast 86400)
    (h2 : (dividedBy a [60, 60, 24]).lt (JSNumber.finite 365) = true) :
    formatTime L a
      = formatNumber L (dividedBy a [60, 60, 24]) ++ " day"
        ++ (if dividedBy a [60, 60, 24] ≠ JSNumber.finite 1 then "s" else "") := by
  have t1 : a.lt (JSNumber.finite 1) = false := JSNumber.atLeast_mono a 86400 1 h1 (by norm_num)
  have t2 : a.lt (JSNumber.finite 60) = false :=
    JSNumber.atLeast_mono a 86400 60 h1 (by norm_num)
  have t3 : (a.div 60).lt (JSNumber.finite 60) = false :=
    atLeast_minutes a (JSNumber.atLeast_mono a 86400 3600 h1 (by norm_num))
  have t4 : ((a.div 60).div 60).lt (JSNumber.finite 24) = false := atLeast_hours a h1
  have t5 : (((a.div 60).div 60).div 24).lt (JSNumber.finite 365) = true := h2
  unfold formatTime
  simp only [t1, t2, t3, t4, t5, Bool.false_eq_true, if_false, if_true]
  rfl

theorem formatTime_years (L : Int → String) (a : JSNumber) (h1 : a.atLeast 31536000)
    (h2 : (dividedBy a [60, 60, 24, 365]).lt (JSNumber.finite 1000) = true) :
    formatTime L a
      = formatNumber L (dividedBy a [60, 60, 24, 365]) ++ " year"
        ++ (if dividedBy a [60, 60, 24, 365] ≠ JSNumber.finite 1 then "s" else "") := by
  have t1 : a.lt (JSNumber.finite 1) = false :=
    JSNumber.atLeast_mono a 31536000 1 h1 (by norm_num)
  have t2 : a.lt (JSNumber.finite 60) = false :=
    JSNumber.atLeast_mono a 31536000 60 h1 (by norm_num)
  have t3 : (a.div 60).lt (JSNumber.finite 60) = false :=
    atLeast_minutes a (JSNumber.atLeast_mono a 31536000 3600 h1 (by norm_num))
  have t4 : ((a.div 60).div 60).lt (JSNumber.finite 24) = false :=
    atLeast_hours a (JSNumber.atLeast_mono a 31536000 86400 h1 (by norm_num))
  have t5 : (((a.div 60).div 60).div 24).lt (JSNumber.finite 365) = false := atLeast_days a h1
  have t6 : ((((a.div 60).div 60).div 24).div 365).lt (JSNumber.finite 1000) = true := h2
  unfold formatTime
  simp only [t1, t2, t3, t4, t5, t6, Bool.false_eq_true, if_false, if_true]
  rfl

theorem formatTime_millennia (L : Int → String) (a : JSNumber) (h1 : a.atLeast 31536000000) :
    formatTime L a
      = formatNumber L (dividedBy a [60, 60, 24, 365, 1000]) ++ " millennium"
        ++ (if dividedBy a [60, 60, 24, 365, 1000] ≠ JSNumber.finite 1 then "a" else "") := by
  have t1 : a.lt (JSNumber.finite 1) = false :=
    JSNumber.atLeast_mono a 31536000000 1 h1 (by norm_num)
  have t2 : a.lt (JSNumber.finite 60) = false :=
    JSNumber.atLeast_mono a 31536000000 60 h1 (by norm_num)
  have t3 : (a.div 60).lt (JSNumber.finite 60) = false :=
    atLeast_minutes a (JSNumber.atLeast_mono a 31536000000 3600 h1 (by norm_num))
  have t4 : ((a.div 60).div 60).lt (JSNumber.finite 24) = false :=
    atLeast_hours a (JSNumber.atLeast_mono a 31536000000 86400 h1 (by norm_num))
  have t5 : (((a.div 60).div 60).div 24).lt (JSNumber.finite 365) = false :=
    atLeast_days a (JSNumber.atLeast_mono a 31536000000 31536000 h1 (by norm_num))
  have t6 : ((((a.div 60).div 60).div 24).div 365).lt (JSNumber.finite 1000) = false :=
    atLeast_years a h1
  unfold formatTime
  simp only [t1, t2, t3, t4, t5, t6, Bool.false_eq_true, if_false]
  rfl

theorem roundDouble_exact_div (x c d : ℚ) (hc : c ≠ 0) (hd : isDouble d) (h : x = c * d) :
    roundDouble (x / c) = JSNumber.finite d := by
  rw [h, mul_div_cancel_left₀ d hc]
  exact roundDouble_of_isDouble d hd

/-- A number of seconds from 61 to 75 is printed as "1 minutes". -/
theorem formatTime_one_minutes (L : Int → String) (a : JSNumber) (h : a.inRange 61 75) :
    formatTime L a = "1 minutes" := by
  obtain ⟨r, rfl, h1, h2⟩ := h
  have hmin : (roundDouble (r / 60)).inRange (65 / 64) (5 / 4) :=
    roundDouble_inRange (r / 60) (65 / 64) (5 / 4)
      ⟨65, -6, by norm_num, by norm_num, by norm_num, by norm_num⟩
      ⟨5, -2, by norm_num, by norm_num, by norm_num, by norm_num⟩
      (by linarith) (by linarith)
  have hlt := JSNumber.lt_of_inRange _ _ _ 60 hmin (by norm_num)
  rw [formatTime_minutes L _ ((JSNumber.atLeast_finite r 60).2 (by linarith)) hlt]
  obtain ⟨v, hv, h3, h4⟩ := hmin
  have hv2 : dividedBy (JSNumber.finite r) [60] = JSNumber.finite v := hv
  have hround : mathRound v = 1 := by
    unfold mathRound
    rw [Int.floor_eq_iff]
    constructor <;> norm_num <;> linarith
  have hne : JSNumber.finite v ≠ JSNumber.finite 1 := by
    intro hcon
    rw [JSNumber.finite.injEq] at hcon
    rw [hcon] at h3
    norm_num at h3
  rw [hv2, formatNumber_of_lt L v (by linarith), hround, if_pos hne]
  decide

theorem formatTime_ninety (L : Int → String) :
    formatTime L (JSNumber.finite 90) = "2 minutes" := by
  have hv : dividedBy (JSNumber.finite 90) [60] = JSNumber.finite (3 / 2) :=
    roundDouble_exact_div 90 60 (3 / 2) (by norm_num)
      ⟨3, -1, by norm_num, by norm_num, by norm_num, by norm_num⟩ (by norm_num)
  rw [formatTime_minutes L _ ((JSNumber.atLeast_finite 90 60).2 (by norm_num))
    (by rw [hv]; simp only [JSNumber.lt, decide_eq_true_eq]; norm_num), hv,
    formatNumber_of_lt L _ (by norm_num)]
  have hround : mathRound (3 / 2) = 2 := by
    norm_num [mathRound, Int.floor_eq_iff]
  have hne : JSNumber.finite (3 / 2) ≠ JSNumber.finite 1 := by
    rw [ne_eq, JSNumber.finite.injEq]
    norm_num
  rw [hround, if_pos hne]
  decide

theorem nearestPow_of_isDouble (b e : Nat) (h : isDouble ((b : ℚ) ^ e)) :
    nearestPow b e = JSNumber.finite ((b : ℚ) ^ e) :=
  roundDouble_of_isDouble _ h

theorem displayBruteForceTime_of_ne_nil {pow : Nat → Nat → JSNumber} (p : JSString) (hne : p ≠ [])
    (dom : BruteForceSection) :
    displayBruteForceTime (analyzePassword pow p) dom
      = { hidden := false
          bruteforceTime := some
            { totalCombinations := (analyzePassword pow p).totalCombinations
              seconds := (analyzePassword pow p).totalCombinations.div 10000000000 } } := by
  have hsize : (analyzePassword pow p).characterSetSize ≠ 0 := fun h0 =>
    hne ((characterTypes_eq_zero_iff p).1 ((characterSetSize_eq_zero_iff p).1 h0))
  have hlen : (analyzePassword pow p).length ≠ 0 := by
    rw [analyzePassword_length]
    exact fun h0 => hne (List.length_eq_zero.1 h0)
  unfold displayBruteForceTime
  rw [if_neg (by tauto)]
  simp [GUESSES_PER_SECOND]

theorem characterSetSize_pos_of_ne_nil {pow : Nat → Nat → JSNumber} (p : JSString) (hne : p ≠ []) :
    0 < (analyzePassword pow p).characterSetSize := by
  rcases Nat.eq_zero_or_pos (analyzePassword pow p).characterSetSize with h0 | h0
  · exact absurd ((characterTypes_eq_zero_iff p).1
      ((characterSetSize_eq_zero_iff p).1 h0)) hne
  · exact h0

theorem totalCombinations_of_ne_nil {pow : Nat → Nat → JSNumber} (p : JSString)
    (hne : p ≠ []) :
    (analyzePassword pow p).totalCombinations
      = pow (analyzePassword pow p).characterSetSize (analyzePassword pow p).length := by
  rw [analyzePassword_totalCombinations, if_pos (characterSetSize_pos_of_ne_nil p hne)]

theorem nearestPow_eq (b e : Nat) : nearestPow b e = roundDouble ((b : ℚ) ^ e) := rfl

theorem faithful_nearestPow : FaithfulPow nearestPow := by
  intro b e
  have h0 : (0 : ℚ) ≤ (b : ℚ) ^ e := pow_nonneg (Nat.cast_nonneg b) e
  refine ⟨?_, ?_⟩
  · intro lo hlo h
    have hmono := roundDouble_mono lo _ (isDouble_nonneg lo hlo) h
    rw [roundDouble_of_isDouble lo hlo] at hmono
    exact hmono
  · intro hi hhi h
    exact roundDouble_inRange _ 0 hi isDouble_zero hhi h0 h

/-- What a faithful Math.pow returns lies between any two doubles that enclose
the exact power. -/
theorem FaithfulPow.inRange {pow : Nat → Nat → JSNumber} (hpow : FaithfulPow pow)
    (b e : Nat) (lo hi : ℚ) (hlo : isDouble lo) (hhi : isDouble hi)
    (h1 : lo ≤ (b : ℚ) ^ e) (h2 : (b : ℚ) ^ e ≤ hi) : (pow b e).inRange lo hi := by
  obtain ⟨r, hr, -, h4⟩ := (hpow b e).2 hi hhi h2
  have h3 := (hpow b e).1 lo hlo h1
  rw [hr, JSNumber.atLeast_finite] at h3
  exact ⟨r, hr, h3, h4⟩

/-- The number of seconds that displayBruteForceTime hands to formatTime is a
non-negative double or Infinity, the numbers that the bands of formatTime are
stated for. -/
theorem seconds_isDouble_or_infinity {pow : Nat → Nat → JSNumber} (hpow : FaithfulPow pow)
    (p : JSString) (hne : p ≠ []) (dom : BruteForceSection) :
    ∃ e : BruteForceEstimate,
      (displayBruteForceTime (analyzePassword pow p) dom).bruteforceTime = some e ∧
      (e.seconds = JSNumber.infinity ∨ ∃ v : ℚ, e.seconds = JSNumber.finite v ∧ isDouble v) := by
  rw [displayBruteForceTime_of_ne_nil p hne dom]
  refine ⟨_, rfl, ?_⟩
  show ((analyzePassword pow p).totalCombinations.div 10000000000 = JSNumber.infinity ∨
    ∃ v : ℚ, (analyzePassword pow p).totalCombinations.div 10000000000 = JSNumber.finite v
      ∧ isDouble v)
  rw [totalCombinations_of_ne_nil p hne]
  have h0 := (hpow (analyzePassword pow p).characterSetSize (analyzePassword pow p).length).1 0
    isDouble_zero (pow_nonneg (Nat.cast_nonneg _) _)
  cases htotal : pow (analyzePassword pow p).characterSetSize (analyzePassword pow p).length with
  | finite r =>
    rw [htotal, JSNumber.atLeast_finite] at h0
    have hq : (0 : ℚ) ≤ r / 10000000000 := div_nonneg h0 (by norm_num)
    rw [JSNumber.div_finite]
    cases hsec : roundDouble (r / 10000000000) with
    | finite v => exact Or.inr ⟨v, rfl, isDouble_of_roundDouble _ v hq hsec⟩
    | infinity => exact Or.inl rfl
    | negInfinity =>
      rw [roundDouble_of_nonneg _ hq] at hsec
      split_ifs at hsec
  | infinity => exact Or.inl rfl
  | negInfinity =>
    rw [htotal] at h0
    simp [JSNumber.atLeast, JSNumber.lt] at h0

/-- No double equals 94 to the power 11: the doubles around it are the multiples
of 2 to the power 20. -/
theorem not_isDouble_pow_94_11 : ¬ isDouble ((94 : ℚ) ^ 11) := by
  intro h
  have hp := isDouble_le_pred _ h 72 4828435966960962 (by norm_num) (by norm_num)
  norm_num at hp

/-- No double equals 94 to the power 11 over 10 to the power 10. -/
theorem not_isDouble_quotient_94_11 : ¬ isDouble ((94 : ℚ) ^ 11 / 10 ^ 10) := by
  intro h
  have hp := isDouble_le_pred _ h 38 8295189827570987 (by norm_num) (by norm_num)
  norm_num at hp

/-! ## Lemmas on appending and on the strength bands -/

theorem regexTest_append (cls : Nat → Bool) (p s : JSString) :
    regexTest cls (p ++ s) = (regexTest cls p || regexTest cls s) := by
  simp [regexTest]

theorem toNat_le_or (a b : Bool) : a.toNat ≤ (a || b).toNat := by
  cases a <;> cases b <;> decide

theorem characterTypes_append {pow : Nat → Nat → JSNumber} (p s : JSString) :
    (analyzePassword pow p).characterTypes ≤ (analyzePassword pow (p ++ s)).characterTypes := by
  rw [analyzePassword_characterTypes p, analyzePassword_characterTypes (p ++ s)]
  simp only [analyzePassword_hasLowercase, analyzePassword_hasUppercase,
    analyzePassword_hasNumbers, analyzePassword_hasSpecial, regexTest_append, countTrue]
  have h1 := toNat_le_or (regexTest isLowercase p) (regexTest isLowercase s)
  have h2 := toNat_le_or (regexTest isUppercase p) (regexTest isUppercase s)
  have h3 := toNat_le_or (regexTest isNumber p) (regexTest isNumber s)
  have h4 := toNat_le_or (regexTest isSpecial p) (regexTest isSpecial s)
  omega

theorem characterTypes_le_four {pow : Nat → Nat → JSNumber} (p : JSString) : (analyzePassword pow p).characterTypes ≤ 4 := by
  rw [analyzePassword_characterTypes]
  exact countTrue_le _ _ _ _

theorem varietyContribution_mono (a b : Nat) (hab : a ≤ b) (hb : b ≤ 4) :
    varietyContribution a ≤ varietyContribution b := by
  interval_cases b <;> interval_cases a <;> norm_num [varietyContribution]

theorem determineStrength_mono (s t : ℚ) (h : s ≤ t) :
    (determineStrength s).ordinal ≤ (determineStrength t).ordinal := by
  unfold determineStrength
  split_ifs <;> simp only [StrengthLevel.ordinal] <;> first | omega | (exfalso; linarith)

theorem determineStrength_very_strong_iff (s : ℚ) :
    determineStrength s = StrengthLevel.VERY_STRONG ↔ 9 / 2 ≤ s := by
  unfold determineStrength
  split_ifs with h1 <;> simp only [reduceCtorEq, false_iff, true_iff] <;> exact h1

theorem determineStrength_strong_iff (s : ℚ) :
    determineStrength s = StrengthLevel.STRONG ↔ 7 / 2 ≤ s ∧ s < 9 / 2 := by
  unfold determineStrength
  split_ifs <;> simp only [reduceCtorEq, false_iff, true_iff, not_and, not_lt, not_le] <;>
    first
      | (constructor <;> linarith)
      | (intros; linarith)

/-- A password of 157 characters with all four classes: 94 to the power 157
overflows the doubles, totalCombinations is Infinity, so is the estimate, and the
text shown is "Infinity millenniuma". -/
theorem overflow_at_157_characters :
    (analyzePassword nearestPow ([97, 65, 49, 33] ++ List.replicate 153 97)).length = 157 ∧
    (analyzePassword nearestPow ([97, 65, 49, 33] ++ List.replicate 153 97)).characterSetSize = 94 ∧
    (analyzePassword nearestPow ([97, 65, 49, 33] ++ List.replicate 153 97)).totalCombinations
      = JSNumber.infinity ∧
    (displayBruteForceTime (analyzePassword nearestPow ([97, 65, 49, 33] ++ List.replicate 153 97))
        ⟨true, none⟩).bruteforceTime.map (BruteForceEstimate.timeEstimate enUS)
      = some "Infinity millenniuma" ∧
    formatNumber enUS JSNumber.infinity = "Infinity" := by
  have hne : ([97, 65, 49, 33] ++ List.replicate 153 97 : JSString) ≠ [] := by simp
  have hlen : (analyzePassword nearestPow ([97, 65, 49, 33] ++ List.replicate 153 97)).length = 157 := by
    rw [analyzePassword_length]
    simp
  have hsize : (analyzePassword nearestPow ([97, 65, 49, 33] ++ List.replicate 153 97)).characterSetSize
      = 94 :=
    (types_and_size_of_flags _ true true true true
      (by rw [regexTest_append]; rfl) (by rw [regexTest_append]; rfl)
      (by rw [regexTest_append]; rfl) (by rw [regexTest_append]; rfl)).2
  have htotal : (analyzePassword nearestPow ([97, 65, 49, 33] ++ List.replicate 153 97)).totalCombinations
      = JSNumber.infinity := by
    rw [totalCombinations_of_ne_nil _ hne, hsize, hlen, nearestPow_eq]
    exact roundDouble_infinity _ (by norm_num)
  refine ⟨hlen, hsize, htotal, ?_, rfl⟩
  rw [displayBruteForceTime_of_ne_nil _ hne, htotal]
  decide

/-! ## Lemmas on the remarks -/

theorem explanations_nil {pow : Nat → Nat → JSNumber} :
    (analyzePassword pow []).explanations
      = ["Password is too short. Use at least 8 characters.",
         "Using all four character types maximizes security.",
         "Consider adding lowercase letters.",
         "Consider adding uppercase letters.",
         "Consider adding numbers.",
         "Consider adding special characters (!@#$%^&*).",
         "This password can be cracked almost instantly."] := by
  rw [analyzePassword_explanations, strength_nil]
  rfl

theorem isConsiderRemark_lengthRemark (n : Nat) : isConsiderRemark (lengthRemark n) = false := by
  unfold lengthRemark
  split_ifs <;> decide

theorem isConsiderRemark_closingRemark (s : StrengthLevel) :
    isConsiderRemark (closingRemark s) = false := by
  cases s <;> decide

theorem allFourRemark_ne_lengthRemark (n : Nat) : allFourRemark ≠ lengthRemark n := by
  unfold lengthRemark
  split_ifs <;> decide

theorem allFourRemark_ne_closingRemark (s : StrengthLevel) : allFourRemark ≠ closingRemark s := by
  cases s <;> decide

theorem allFourRemark_not_mem_missing (l u n sp : Bool) :
    allFourRemark ∉ missingClassRemarks l u n sp := by
  cases l <;> cases u <;> cases n <;> cases sp <;> decide

theorem countTrue_eq_four (a b c d : Bool) (h : countTrue a b c d = 4) :
    a = true ∧ b = true ∧ c = true ∧ d = true := by
  revert h
  cases a <;> cases b <;> cases c <;> cases d <;> decide

theorem varietyRemark_of_band (t : Nat) (h1 : 1 ≤ t) (h4 : t ≤ 4) :
    some ((varietyRemark t).getD allFourRemark) = varietyRemark t ∧
    ((varietyRemark t).getD allFourRemark = allFourRemark ↔ t = 4) := by
  interval_cases t <;> exact ⟨rfl, by decide⟩

/-! ## Claims -/

/-- C1: for every password, the score returned by analyzePassword is the length
contribution (3, 2, 1, 0.5 or 0 by the bands 16, 12, 8, 4 of the length) plus the
variety contribution (2, 1.5, 1, 0.5 or 0 for 4, 3, 2, 1 or no character types). -/
theorem C1_score_is_length_plus_variety (pow : Nat → Nat → JSNumber) (password : JSString) :
    (analyzePassword pow password).length = password.length ∧
    (analyzePassword pow password).score
      = lengthContribution (analyzePassword pow password).length
        + varietyContribution (analyzePassword pow password).characterTypes := by
  exact ⟨rfl, analyzePassword_score password⟩

/-- C2: the strength level is a function of the score alone, defined on every
score: analyzePassword returns determineStrength of its score, and that level is
VERY_STRONG iff the score is at least 4.5, STRONG iff it is in [3.5, 4.5),
MODERATE iff in [2, 3.5), WEAK iff in [1, 2) and VERY_WEAK iff below 1. -/
theorem C2_strength_bands (pow : Nat → Nat → JSNumber) (s : ℚ) :
    (∀ password : JSString,
      (analyzePassword pow password).strength = determineStrength (analyzePassword pow password).score) ∧
    (determineStrength s = StrengthLevel.VERY_STRONG ↔ 9 / 2 ≤ s) ∧
    (determineStrength s = StrengthLevel.STRONG ↔ 7 / 2 ≤ s ∧ s < 9 / 2) ∧
    (determineStrength s = StrengthLevel.MODERATE ↔ 2 ≤ s ∧ s < 7 / 2) ∧
    (determineStrength s = StrengthLevel.WEAK ↔ 1 ≤ s ∧ s < 2) ∧
    (determineStrength s = StrengthLevel.VERY_WEAK ↔ s < 1) := by
  refine ⟨fun _ => rfl, ?_, ?_, ?_, ?_, ?_⟩ <;>
  · unfold determineStrength
    split_ifs <;>
      simp only [reduceCtorEq, false_iff, true_iff, not_and, not_le, not_lt, ge_iff_le] at * <;>
      first
        | (constructor <;> linarith)
        | (intros; linarith)

/-- C3: hasLowercase holds iff some code unit is in a-z, hasUppercase iff some is
in A-Z, hasNumbers iff some is in 0-9, hasSpecial iff some is in none of the three
ranges; a code unit outside ASCII makes hasSpecial true; and two passwords with the
same set of code units (whatever their order and multiplicity) have the same flags. -/
theorem C3_class_flags (pow : Nat → Nat → JSNumber) (password : JSString) :
    ((analyzePassword pow password).hasLowercase = true ↔ ∃ c ∈ password, 97 ≤ c ∧ c ≤ 122) ∧
    ((analyzePassword pow password).hasUppercase = true ↔ ∃ c ∈ password, 65 ≤ c ∧ c ≤ 90) ∧
    ((analyzePassword pow password).hasNumbers = true ↔ ∃ c ∈ password, 48 ≤ c ∧ c ≤ 57) ∧
    ((analyzePassword pow password).hasSpecial = true ↔
      ∃ c ∈ password, ¬ (97 ≤ c ∧ c ≤ 122) ∧ ¬ (65 ≤ c ∧ c ≤ 90) ∧ ¬ (48 ≤ c ∧ c ≤ 57)) ∧
    (∀ c ∈ password, 128 ≤ c → (analyzePassword pow password).hasSpecial = true) ∧
    (∀ other : JSString, (∀ c, c ∈ password ↔ c ∈ other) →
      (analyzePassword pow other).hasLowercase = (analyzePassword pow password).hasLowercase ∧
      (analyzePassword pow other).hasUppercase = (analyzePassword pow password).hasUppercase ∧
      (analyzePassword pow other).hasNumbers = (analyzePassword pow password).hasNumbers ∧
      (analyzePassword pow other).hasSpecial = (analyzePassword pow password).hasSpecial) := by
  refine ⟨?_, ?_, ?_, ?_, ?_, ?_⟩
  · simp only [analyzePassword_hasLowercase, regexTest_eq_true, isLowercase_iff]
  · simp only [analyzePassword_hasUppercase, regexTest_eq_true, isUppercase_iff]
  · simp only [analyzePassword_hasNumbers, regexTest_eq_true, isNumber_iff]
  · simp only [analyzePassword_hasSpecial, regexTest_eq_true, isSpecial_iff]
  · intro c hc h128
    rw [analyzePassword_hasSpecial, regexTest_eq_true]
    exact ⟨c, hc, (isSpecial_iff c).2 ⟨by omega, by omega, by omega⟩⟩
  · intro other h
    exact ⟨(regexTest_congr _ _ _ h).symm, (regexTest_congr _ _ _ h).symm,
      (regexTest_congr _ _ _ h).symm, (regexTest_congr _ _ _ h).symm⟩

/-- C3 at the password of code units a, U+00E9: the second unit is outside ASCII,
so hasSpecial holds, and the flags of a reordering with a repeated unit agree. -/
theorem C3_class_flags_witness :
    (analyzePassword nearestPow [97, 233]).hasSpecial = true ∧
    (analyzePassword nearestPow [233, 97, 97]).hasLowercase = (analyzePassword nearestPow [97, 233]).hasLowercase ∧
    (analyzePassword nearestPow [233, 97, 97]).hasSpecial = (analyzePassword nearestPow [97, 233]).hasSpecial :=
  ⟨(C3_class_flags nearestPow [97, 233]).2.2.2.2.1 233 (by simp) (by decide),
   ((C3_class_flags nearestPow [97, 233]).2.2.2.2.2 [233, 97, 97] (by simp; tauto)).1,
   ((C3_class_flags nearestPow [97, 233]).2.2.2.2.2 [233, 97, 97] (by simp; tauto)).2.2.2⟩

/-- C4: characterTypes is the number of true flags among hasLowercase,
hasUppercase, hasNumbers and hasSpecial, hence at most 4, and characterSetSize is
the sum of 26, 26, 10 and 32 over the classes whose flag is true. -/
theorem C4_types_and_set_size (pow : Nat → Nat → JSNumber) (password : JSString) :
    (analyzePassword pow password).characterTypes
      = countTrue (analyzePassword pow password).hasLowercase (analyzePassword pow password).hasUppercase
          (analyzePassword pow password).hasNumbers (analyzePassword pow password).hasSpecial ∧
    0 ≤ (analyzePassword pow password).characterTypes ∧
    (analyzePassword pow password).characterTypes ≤ 4 ∧
    (analyzePassword pow password).characterSetSize
      = classSizeSum (analyzePassword pow password).hasLowercase
          (analyzePassword pow password).hasUppercase
          (analyzePassword pow password).hasNumbers (analyzePassword pow password).hasSpecial := by
  refine ⟨analyzePassword_characterTypes password, Nat.zero_le _, ?_,
    analyzePassword_characterSetSize password⟩
  rw [analyzePassword_characterTypes]
  exact countTrue_le _ _ _ _

/-- C5: characterSetSize is 0 iff the length is 0 or characterTypes is 0; a
password that is not empty never has characterTypes 0, so characterSetSize is 0
iff the password is empty, and every non-empty password has characterTypes at
least 1. -/
theorem C5_set_size_zero_iff_empty (pow : Nat → Nat → JSNumber) (password : JSString) :
    ((analyzePassword pow password).characterSetSize = 0 ↔
      ((analyzePassword pow password).length = 0 ∨ (analyzePassword pow password).characterTypes = 0)) ∧
    (password ≠ [] → (analyzePassword pow password).characterTypes ≠ 0) ∧
    ((analyzePassword pow password).characterSetSize = 0 ↔ password = []) ∧
    (password ≠ [] → 1 ≤ (analyzePassword pow password).characterTypes) := by
  have hset : (analyzePassword pow password).characterSetSize = 0 ↔ password = [] :=
    (characterSetSize_eq_zero_iff password).trans (characterTypes_eq_zero_iff password)
  refine ⟨?_, ?_, hset, characterTypes_pos_of_ne_nil password⟩
  · rw [hset, characterTypes_eq_zero_iff, analyzePassword_length, List.length_eq_zero]
    exact or_self_iff.symm
  · intro hne h0
    exact hne ((characterTypes_eq_zero_iff password).1 h0)

/-- C5 at the one-character password "a": it is not empty, so characterTypes is
neither 0 nor below 1. -/
theorem C5_set_size_zero_iff_empty_witness :
    (analyzePassword nearestPow [97]).characterTypes ≠ 0 ∧ 1 ≤ (analyzePassword nearestPow [97]).characterTypes :=
  ⟨(C5_set_size_zero_iff_empty nearestPow [97]).2.1 (by decide),
   (C5_set_size_zero_iff_empty nearestPow [97]).2.2.2 (by decide)⟩

/-- C6: when two passwords have the same four class flags and the first is no
longer than the second, the score of the first is at most the score of the
second. -/
theorem C6_score_monotone_in_length (pow : Nat → Nat → JSNumber) (p q : JSString)
    (hlower : (analyzePassword pow p).hasLowercase = (analyzePassword pow q).hasLowercase)
    (hupper : (analyzePassword pow p).hasUppercase = (analyzePassword pow q).hasUppercase)
    (hnumber : (analyzePassword pow p).hasNumbers = (analyzePassword pow q).hasNumbers)
    (hspecial : (analyzePassword pow p).hasSpecial = (analyzePassword pow q).hasSpecial)
    (hlen : (analyzePassword pow p).length ≤ (analyzePassword pow q).length) :
    (analyzePassword pow p).score ≤ (analyzePassword pow q).score := by
  rw [analyzePassword_score, analyzePassword_score, analyzePassword_characterTypes p,
    analyzePassword_characterTypes q, hlower, hupper, hnumber, hspecial]
  have := lengthContribution_mono p.length q.length hlen
  linarith

/-- C6 at the passwords "ab" and "abcdefgh", both lowercase only. -/
theorem C6_score_monotone_in_length_witness :
    (analyzePassword nearestPow [97, 98]).score
      ≤ (analyzePassword nearestPow [97, 98, 99, 100, 101, 102, 103, 104]).score :=
  C6_score_monotone_in_length nearestPow [97, 98] [97, 98, 99, 100, 101, 102, 103, 104]
    (by decide) (by decide) (by decide) (by decide) (by decide)

/-- C7: when two passwords have the same length and the classes present in the
second are those present in the first plus one class k absent from the first, the
score of the first is at most the score of the second. -/
theorem C7_score_monotone_in_classes (pow : Nat → Nat → JSNumber) (p q : JSString) (k : CharClass)
    (hlen : (analyzePassword pow p).length = (analyzePassword pow q).length)
    (habsent : (analyzePassword pow p).hasClass k = false)
    (hadded : (analyzePassword pow q).hasClass k = true)
    (hrest : ∀ j : CharClass, j ≠ k →
      (analyzePassword pow q).hasClass j = (analyzePassword pow p).hasClass j) :
    (analyzePassword pow p).score ≤ (analyzePassword pow q).score := by
  have hl := hrest CharClass.lowercase
  have hu := hrest CharClass.uppercase
  have hn := hrest CharClass.number
  have hs := hrest CharClass.special
  simp only [analyzePassword_length] at hlen
  rw [analyzePassword_score, analyzePassword_score, analyzePassword_characterTypes p,
    analyzePassword_characterTypes q, hlen]
  cases k <;> simp only [Analysis.hasClass, ne_eq, reduceCtorEq, not_false_eq_true,
      forall_const, not_true_eq_false, IsEmpty.forall_iff] at habsent hadded hl hu hn hs <;>
    simp only [habsent, hadded, hl, hu, hn, hs] <;>
    cases (analyzePassword pow p).hasLowercase <;> cases (analyzePassword pow p).hasUppercase <;>
    cases (analyzePassword pow p).hasNumbers <;> cases (analyzePassword pow p).hasSpecial <;>
    norm_num [countTrue, varietyContribution]

/-- C7 at the passwords "aa" and "aA": the second adds the uppercase class. -/
theorem C7_score_monotone_in_classes_witness :
    (analyzePassword nearestPow [97, 97]).score ≤ (analyzePassword nearestPow [97, 65]).score :=
  C7_score_monotone_in_classes nearestPow [97, 97] [97, 65] CharClass.uppercase
    (by decide) (by decide) (by decide)
    (fun j hj => by cases j <;> first | exact absurd rfl hj | decide)

/-- C8: the score of every password lies between 0 and 5; a password of length
at least 16 with all four classes scores exactly 5, and such a password exists, so
the maximum 5 is attained. -/
theorem C8_score_range (pow : Nat → Nat → JSNumber) (password : JSString) :
    0 ≤ (analyzePassword pow password).score ∧
    (analyzePassword pow password).score ≤ 5 ∧
    (16 ≤ (analyzePassword pow password).length →
      (analyzePassword pow password).hasLowercase = true →
      (analyzePassword pow password).hasUppercase = true →
      (analyzePassword pow password).hasNumbers = true →
      (analyzePassword pow password).hasSpecial = true →
      (analyzePassword pow password).score = 5) ∧
    (∃ q : JSString, (analyzePassword pow q).score = 5) := by
  have hl := lengthContribution_bounds password.length
  have hv := varietyContribution_bounds (analyzePassword pow password).characterTypes
  have hfull : ∀ r : JSString, 16 ≤ (analyzePassword pow r).length →
      (analyzePassword pow r).hasLowercase = true → (analyzePassword pow r).hasUppercase = true →
      (analyzePassword pow r).hasNumbers = true → (analyzePassword pow r).hasSpecial = true →
      (analyzePassword pow r).score = 5 := by
    intro r h16 h1 h2 h3 h4
    rw [analyzePassword_length] at h16
    rw [analyzePassword_score, analyzePassword_characterTypes, h1, h2, h3, h4]
    norm_num [lengthContribution, varietyContribution, countTrue, h16]
  refine ⟨?_, ?_, hfull password, ?_⟩
  · rw [analyzePassword_score]
    linarith [hl.1, hv.1]
  · rw [analyzePassword_score]
    linarith [hl.2, hv.2]
  · exact ⟨[97, 65, 49, 33, 97, 97, 97, 97, 97, 97, 97, 97, 97, 97, 97, 97],
      hfull _ (by rw [analyzePassword_length]; decide) rfl rfl rfl rfl⟩

/-- C8 at the 16-character password "aA1!aaaaaaaaaaaa": it has all four classes
and scores 5. -/
theorem C8_score_range_witness :
    (analyzePassword nearestPow [97, 65, 49, 33, 97, 97, 97, 97, 97, 97, 97, 97, 97, 97, 97, 97]).score
      = 5 :=
  (C8_score_range nearestPow [97, 65, 49, 33, 97, 97, 97, 97, 97, 97, 97, 97, 97, 97, 97, 97]).2.2.1
    (by decide) (by decide) (by decide) (by decide) (by decide)

/-- C9: for the empty password analyzePassword returns length 0,
characterSetSize 0, totalCombinations 0 and the level VERY_WEAK, and
displayBruteForceTime on that result hides the section and writes no estimate:
the content of bruteforce-time stays what it was. -/
theorem C9_empty_password (pow : Nat → Nat → JSNumber) :
    (analyzePassword pow []).length = 0 ∧
    (analyzePassword pow []).characterSetSize = 0 ∧
    (analyzePassword pow []).totalCombinations = JSNumber.finite 0 ∧
    (analyzePassword pow []).strength = StrengthLevel.VERY_WEAK ∧
    (∀ dom : BruteForceSection,
      (displayBruteForceTime (analyzePassword pow []) dom).hidden = true ∧
      (displayBruteForceTime (analyzePassword pow []) dom).bruteforceTime = dom.bruteforceTime) ∧
    displayBruteForceTime (analyzePassword pow []) ⟨true, none⟩ = ⟨true, none⟩ := by
  have hsize : (analyzePassword pow []).characterSetSize = 0 := rfl
  have hdisplay : ∀ dom : BruteForceSection,
      displayBruteForceTime (analyzePassword pow []) dom = { dom with hidden := true } := by
    intro dom
    simp only [displayBruteForceTime, hsize, true_or, if_true]
  refine ⟨rfl, hsize, rfl, ?_, ?_, ?_⟩
  · rw [analyzePassword_strength, score_nil]
    norm_num [determineStrength]
  · intro dom
    rw [hdisplay dom]
    exact ⟨rfl, rfl⟩
  · rw [hdisplay]

/-- C10: a non-empty password whose code units all lie in one class has
characterTypes 1 and the character set size of that class: 26 when all are in a-z,
26 when all are in A-Z, 10 when all are in 0-9, and 32 when all are outside the
three ranges. -/
theorem C10_single_class (pow : Nat → Nat → JSNumber) (password : JSString) (hne : password ≠ []) :
    ((∀ c ∈ password, 97 ≤ c ∧ c ≤ 122) →
      (analyzePassword pow password).characterTypes = 1 ∧
      (analyzePassword pow password).characterSetSize = 26) ∧
    ((∀ c ∈ password, 65 ≤ c ∧ c ≤ 90) →
      (analyzePassword pow password).characterTypes = 1 ∧
      (analyzePassword pow password).characterSetSize = 26) ∧
    ((∀ c ∈ password, 48 ≤ c ∧ c ≤ 57) →
      (analyzePassword pow password).characterTypes = 1 ∧
      (analyzePassword pow password).characterSetSize = 10) ∧
    ((∀ c ∈ password, ¬ (97 ≤ c ∧ c ≤ 122) ∧ ¬ (65 ≤ c ∧ c ≤ 90) ∧ ¬ (48 ≤ c ∧ c ≤ 57)) →
      (analyzePassword pow password).characterTypes = 1 ∧
      (analyzePassword pow password).characterSetSize = 32) := by
  refine ⟨?_, ?_, ?_, ?_⟩
  · intro h
    refine types_and_size_of_flags password true false false false
      (regexTest_of_all _ _ hne fun c hc => (isLowercase_iff c).2 (h c hc)) ?_ ?_ ?_ <;>
    · rw [regexTest_eq_false]
      intro c hc
      have := h c hc
      simp [isUppercase, isNumber, isSpecial, isLowercase]
      omega
  · intro h
    refine types_and_size_of_flags password false true false false ?_
      (regexTest_of_all _ _ hne fun c hc => (isUppercase_iff c).2 (h c hc)) ?_ ?_ <;>
    · rw [regexTest_eq_false]
      intro c hc
      have := h c hc
      simp [isUppercase, isNumber, isSpecial, isLowercase]
      omega
  · intro h
    refine types_and_size_of_flags password false false true false ?_ ?_
      (regexTest_of_all _ _ hne fun c hc => (isNumber_iff c).2 (h c hc)) ?_ <;>
    · rw [regexTest_eq_false]
      intro c hc
      have := h c hc
      simp [isUppercase, isNumber, isSpecial, isLowercase]
      omega
  · intro h
    refine types_and_size_of_flags password false false false true ?_ ?_ ?_
      (regexTest_of_all _ _ hne fun c hc => (isSpecial_iff c).2 (h c hc)) <;>
    · rw [regexTest_eq_false]
      intro c hc
      have := h c hc
      simp [isUppercase, isNumber, isLowercase]
      omega

/-- C10 at the passwords "abc", "ABC", "123" and "!@#", one per class. -/
theorem C10_single_class_witness :
    ((analyzePassword nearestPow [97, 98, 99]).characterTypes = 1 ∧
      (analyzePassword nearestPow [97, 98, 99]).characterSetSize = 26) ∧
    ((analyzePassword nearestPow [65, 66, 67]).characterTypes = 1 ∧
      (analyzePassword nearestPow [65, 66, 67]).characterSetSize = 26) ∧
    ((analyzePassword nearestPow [49, 50, 51]).characterTypes = 1 ∧
      (analyzePassword nearestPow [49, 50, 51]).characterSetSize = 10) ∧
    ((analyzePassword nearestPow [33, 64, 35]).characterTypes = 1 ∧
      (analyzePassword nearestPow [33, 64, 35]).characterSetSize = 32) :=
  ⟨(C10_single_class nearestPow [97, 98, 99] (by decide)).1 (by decide),
   (C10_single_class nearestPow [65, 66, 67] (by decide)).2.1 (by decide),
   (C10_single_class nearestPow [49, 50, 51] (by decide)).2.2.1 (by decide),
   (C10_single_class nearestPow [33, 64, 35] (by decide)).2.2.2 (by decide)⟩

/-- C11, as stated, fails at "Tr0ub4dor&3": characterSetSize is 94 and the length
11; with a Math.pow that rounds to nearest, totalCombinations is the double
5062982072492057690112, which is not 94 to the power 11; and no double equals that
power, 5062982072492057196544, so no engine returns it. -/
theorem C11_counterexample :
    (analyzePassword nearestPow (js "Tr0ub4dor&3")).characterSetSize = 94 ∧
    (analyzePassword nearestPow (js "Tr0ub4dor&3")).length = 11 ∧
    (analyzePassword nearestPow (js "Tr0ub4dor&3")).totalCombinations
      = JSNumber.finite 5062982072492057690112 ∧
    (analyzePassword nearestPow (js "Tr0ub4dor&3")).totalCombinations
      ≠ JSNumber.finite ((94 : ℚ) ^ 11) ∧
    ¬ isDouble ((94 : ℚ) ^ 11) := by
  have hjs : js "Tr0ub4dor&3" = [84, 114, 48, 117, 98, 52, 100, 111, 114, 38, 51] := by
    decide
  have hsize : (analyzePassword nearestPow (js "Tr0ub4dor&3")).characterSetSize = 94 := by
    rw [hjs]; decide
  have hlen : (analyzePassword nearestPow (js "Tr0ub4dor&3")).length = 11 := by
    rw [hjs]; rfl
  have hpow : roundDouble (((94 : ℕ) : ℚ) ^ 11) = JSNumber.finite 5062982072492057690112 := by
    rw [roundDouble_eval _ 72 4828435966960962 (by norm_num) (by norm_num) (by norm_num)
      ((roundHalfEven_up _ 4828435966960961 (by norm_num) (by norm_num)).trans (by norm_num))
      (by norm_num)]
    norm_num
  have htotal : (analyzePassword nearestPow (js "Tr0ub4dor&3")).totalCombinations
      = JSNumber.finite 5062982072492057690112 := by
    rw [totalCombinations_of_ne_nil _ (by rw [hjs]; decide), hsize, hlen, nearestPow_eq, hpow]
  refine ⟨hsize, hlen, htotal, ?_, not_isDouble_pow_94_11⟩
  rw [htotal, ne_eq, JSNumber.finite.injEq]
  norm_num

/-- C11, amended: totalCombinations is 0 when characterSetSize is 0, and when
characterSetSize is positive it is what Math.pow returns for characterSetSize and
the length. For a Math.pow that never rounds past a double it therefore lies
between any two doubles that enclose characterSetSize to the power length, and
equals that power when the power is a double, as every power below 2 to the 53
is; and it is at least 1 for every non-empty password. -/
theorem C11_total_combinations (pow : Nat → Nat → JSNumber) (hpow : FaithfulPow pow)
    (password : JSString) :
    ((analyzePassword pow password).characterSetSize = 0 →
      (analyzePassword pow password).totalCombinations = JSNumber.finite 0) ∧
    (0 < (analyzePassword pow password).characterSetSize →
      (analyzePassword pow password).totalCombinations
        = pow (analyzePassword pow password).characterSetSize
            (analyzePassword pow password).length) ∧
    (0 < (analyzePassword pow password).characterSetSize →
      ∀ lo hi : ℚ, isDouble lo → isDouble hi →
        lo ≤ ((analyzePassword pow password).characterSetSize : ℚ)
              ^ (analyzePassword pow password).length →
        ((analyzePassword pow password).characterSetSize : ℚ)
              ^ (analyzePassword pow password).length ≤ hi →
        (analyzePassword pow password).totalCombinations.inRange lo hi) ∧
    (0 < (analyzePassword pow password).characterSetSize →
      isDouble (((analyzePassword pow password).characterSetSize : ℚ)
        ^ (analyzePassword pow password).length) →
      (analyzePassword pow password).totalCombinations
        = JSNumber.finite (((analyzePassword pow password).characterSetSize : ℚ)
            ^ (analyzePassword pow password).length)) ∧
    (0 < (analyzePassword pow password).characterSetSize →
      (analyzePassword pow password).characterSetSize ^ (analyzePassword pow password).length
        < 2 ^ 53 →
      (analyzePassword pow password).totalCombinations
        = JSNumber.finite (((analyzePassword pow password).characterSetSize : ℚ)
            ^ (analyzePassword pow password).length)) ∧
    (password ≠ [] → (analyzePassword pow password).totalCombinations.atLeast 1) := by
  have htotal : 0 < (analyzePassword pow password).characterSetSize →
      (analyzePassword pow password).totalCombinations
        = pow (analyzePassword pow password).characterSetSize
            (analyzePassword pow password).length := by
    intro h
    rw [analyzePassword_totalCombinations, if_pos h]
  have hexact : 0 < (analyzePassword pow password).characterSetSize →
      isDouble (((analyzePassword pow password).characterSetSize : ℚ)
        ^ (analyzePassword pow password).length) →
      (analyzePassword pow password).totalCombinations
        = JSNumber.finite (((analyzePassword pow password).characterSetSize : ℚ)
            ^ (analyzePassword pow password).length) := by
    intro h hd
    rw [htotal h]
    obtain ⟨r, hr, h1, h2⟩ := hpow.inRange _ _ _ _ hd hd le_rfl le_rfl
    rw [hr, le_antisymm h2 h1]
  refine ⟨?_, htotal, ?_, hexact, ?_, ?_⟩
  · intro h
    rw [analyzePassword_totalCombinations, h]
    rfl
  · intro h lo hi hlo hhi h1 h2
    rw [htotal h]
    exact hpow.inRange _ _ lo hi hlo hhi h1 h2
  · intro h hlt
    have hd := isDouble_natCast _ hlt
    rw [Nat.cast_pow] at hd
    exact hexact h hd
  · intro hne
    have hpos := @characterSetSize_pos_of_ne_nil pow password hne
    rw [htotal hpos]
    have hone : (1 : ℚ) ≤ ((analyzePassword pow password).characterSetSize : ℚ)
        ^ (analyzePassword pow password).length :=
      one_le_pow₀ (by exact_mod_cast hpos)
    exact (hpow _ _).1 1 (by exact_mod_cast isDouble_natCast 1 (by norm_num)) hone

/-- C11, amended, with the Math.pow that rounds to nearest: at the password "ab"
(26 squared combinations, which lie between the doubles 676 and 676 and are below
2 to the 53), at the password "A" (its power 26 is a double) and at the empty
password. -/
theorem C11_total_combinations_witness :
    (analyzePassword nearestPow []).totalCombinations = JSNumber.finite 0 ∧
    (analyzePassword nearestPow [97, 98]).totalCombinations
      = nearestPow (analyzePassword nearestPow [97, 98]).characterSetSize
          (analyzePassword nearestPow [97, 98]).length ∧
    (analyzePassword nearestPow [97, 98]).totalCombinations.inRange 676 676 ∧
    (analyzePassword nearestPow [65]).totalCombinations
      = JSNumber.finite (((analyzePassword nearestPow [65]).characterSetSize : ℚ)
          ^ (analyzePassword nearestPow [65]).length) ∧
    (analyzePassword nearestPow [97, 98]).totalCombinations
      = JSNumber.finite (((analyzePassword nearestPow [97, 98]).characterSetSize : ℚ)
          ^ (analyzePassword nearestPow [97, 98]).length) ∧
    (analyzePassword nearestPow [97, 98]).totalCombinations.atLeast 1 :=
  ⟨(C11_total_combinations nearestPow faithful_nearestPow []).1 (by decide),
   (C11_total_combinations nearestPow faithful_nearestPow [97, 98]).2.1 (by decide),
   (C11_total_combinations nearestPow faithful_nearestPow [97, 98]).2.2.1 (by decide) 676 676
     ⟨676, 0, by norm_num, by norm_num, by norm_num, by norm_num⟩
     ⟨676, 0, by norm_num, by norm_num, by norm_num, by norm_num⟩
     (by
      have h1 : (analyzePassword nearestPow [97, 98]).characterSetSize = 26 := by decide
      have h2 : (analyzePassword nearestPow [97, 98]).length = 2 := rfl
      rw [h1, h2]; norm_num)
     (by
      have h1 : (analyzePassword nearestPow [97, 98]).characterSetSize = 26 := by decide
      have h2 : (analyzePassword nearestPow [97, 98]).length = 2 := rfl
      rw [h1, h2]; norm_num),
   (C11_total_combinations nearestPow faithful_nearestPow [65]).2.2.2.1 (by decide)
     ⟨26, 0, by norm_num, by norm_num, by norm_num, by
       have h1 : (analyzePassword nearestPow [65]).characterSetSize = 26 := by decide
       have h2 : (analyzePassword nearestPow [65]).length = 1 := rfl
       rw [h1, h2]; norm_num⟩,
   (C11_total_combinations nearestPow faithful_nearestPow [97, 98]).2.2.2.2.1 (by decide)
     (by decide),
   (C11_total_combinations nearestPow faithful_nearestPow [97, 98]).2.2.2.2.2 (by decide)⟩

/-- C12: the explanations are, in this order, the length-band remark, one
variety remark, the remarks for the absent classes in the order lowercase,
uppercase, numbers, special, and the closing remark of the strength level; the
list is never empty and has 3 entries plus one for each absent class. -/
theorem C12_explanations_layout (pow : Nat → Nat → JSNumber) (password : JSString) :
    (∃ v ∈ varietyRemarks,
      (analyzePassword pow password).explanations
        = [lengthRemark (analyzePassword pow password).length] ++ [v]
          ++ missingClassRemarks (analyzePassword pow password).hasLowercase
              (analyzePassword pow password).hasUppercase (analyzePassword pow password).hasNumbers
              (analyzePassword pow password).hasSpecial
          ++ [closingRemark (analyzePassword pow password).strength]) ∧
    (analyzePassword pow password).explanations ≠ [] ∧
    (analyzePassword pow password).explanations.length
      = 3 + countTrue (!(analyzePassword pow password).hasLowercase)
          (!(analyzePassword pow password).hasUppercase) (!(analyzePassword pow password).hasNumbers)
          (!(analyzePassword pow password).hasSpecial) := by
  refine ⟨⟨_, varietyRemark_getD_mem (analyzePassword pow password).characterTypes,
    analyzePassword_explanations password⟩, ?_, ?_⟩
  · rw [analyzePassword_explanations]
    simp
  · rw [analyzePassword_explanations]
    simp only [List.length_append, List.length_cons, List.length_nil,
      missingClassRemarks_length]
    omega

/-- C17: analyzePassword on "Tr0ub4dor&3" returns length 11, the four class
flags true, characterTypes 4, score 3 and the level MODERATE, and 3 is below
the threshold 3.5 of STRONG. -/
theorem C17_troubador (pow : Nat → Nat → JSNumber) :
    (analyzePassword pow (js "Tr0ub4dor&3")).length = 11 ∧
    (analyzePassword pow (js "Tr0ub4dor&3")).hasLowercase = true ∧
    (analyzePassword pow (js "Tr0ub4dor&3")).hasUppercase = true ∧
    (analyzePassword pow (js "Tr0ub4dor&3")).hasNumbers = true ∧
    (analyzePassword pow (js "Tr0ub4dor&3")).hasSpecial = true ∧
    (analyzePassword pow (js "Tr0ub4dor&3")).characterTypes = 4 ∧
    (analyzePassword pow (js "Tr0ub4dor&3")).score = 3 ∧
    (analyzePassword pow (js "Tr0ub4dor&3")).strength = StrengthLevel.MODERATE ∧
    (analyzePassword pow (js "Tr0ub4dor&3")).score < 7 / 2 := by
  have hjs : js "Tr0ub4dor&3" = [84, 114, 48, 117, 98, 52, 100, 111, 114, 38, 51] := by
    decide
  have htypes : (analyzePassword pow (js "Tr0ub4dor&3")).characterTypes = 4 := by
    rw [hjs]; rfl
  have hscore : (analyzePassword pow (js "Tr0ub4dor&3")).score = 3 := by
    rw [analyzePassword_score, htypes, hjs]
    norm_num [lengthContribution, varietyContribution]
  refine ⟨by rw [hjs]; rfl, by rw [hjs]; rfl, by rw [hjs]; rfl, by rw [hjs]; rfl,
    by rw [hjs]; rfl, htypes, hscore, ?_, ?_⟩
  · rw [analyzePassword_strength, hscore]
    norm_num [determineStrength]
  · rw [hscore]
    norm_num

/-- C13, as stated, fails at "Tr0ub4dor&3": with a Math.pow that rounds to
nearest, the estimate that displayBruteForceTime computes is the double
8295189827570987 / 16384 (506298207249.20575 seconds), which is not 94 to the
power 11 over 10 to the 10; and no double equals that quotient, so no engine
yields it. -/
theorem C13_counterexample :
    (displayBruteForceTime (analyzePassword nearestPow (js "Tr0ub4dor&3"))
        ⟨true, none⟩).bruteforceTime.map BruteForceEstimate.seconds
      = some (JSNumber.finite (8295189827570987 / 16384)) ∧
    JSNumber.finite (8295189827570987 / 16384) ≠ JSNumber.finite ((94 : ℚ) ^ 11 / 10 ^ 10) ∧
    ¬ isDouble ((94 : ℚ) ^ 11 / 10 ^ 10) := by
  have hjs : js "Tr0ub4dor&3" = [84, 114, 48, 117, 98, 52, 100, 111, 114, 38, 51] := by
    decide
  have hsize :
      (analyzePassword nearestPow [84, 114, 48, 117, 98, 52, 100, 111, 114, 38, 51]).characterSetSize
        = 94 := by decide
  have hlen : (analyzePassword nearestPow [84, 114, 48, 117, 98, 52, 100, 111, 114, 38, 51]).length
      = 11 := rfl
  have hpow : roundDouble (((94 : ℕ) : ℚ) ^ 11) = JSNumber.finite 5062982072492057690112 := by
    rw [roundDouble_eval _ 72 4828435966960962 (by norm_num) (by norm_num) (by norm_num)
      ((roundHalfEven_up _ 4828435966960961 (by norm_num) (by norm_num)).trans (by norm_num))
      (by norm_num)]
    norm_num
  have hquot : roundDouble (5062982072492057690112 / 10000000000)
      = JSNumber.finite (8295189827570987 / 16384) := by
    rw [roundDouble_eval _ 38 8295189827570987 (by norm_num) (by norm_num) (by norm_num)
      (roundHalfEven_down _ 8295189827570987 (by norm_num) (by norm_num)) (by norm_num)]
    norm_num
  refine ⟨?_, ?_, not_isDouble_quotient_94_11⟩
  · rw [hjs, displayBruteForceTime_of_ne_nil _ (by decide),
      totalCombinations_of_ne_nil _ (by decide), hsize, hlen, nearestPow_eq, hpow]
    simp only [Option.map_some', Option.some.injEq]
    exact hquot
  · rw [ne_eq, JSNumber.finite.injEq]
    norm_num

/-- C13, amended: GUESSES_PER_SECOND is 10 to the 10; for every non-empty
password displayBruteForceTime shows the section and computes the estimate as
totalCombinations divided by 10 to the 10, in double precision. For a Math.pow
that never rounds past a double, when characterSetSize to the power length lies
between two doubles, the estimate lies between any two doubles that enclose the
quotients of those two by 10 to the 10. For a result with characterSetSize 0 or
length 0 it hides the section and computes nothing, leaving the content of
bruteforce-time as it was. -/
theorem C13_crack_time_estimate (pow : Nat → Nat → JSNumber) (hpow : FaithfulPow pow)
    (password : JSString) (dom : BruteForceSection) :
    GUESSES_PER_SECOND = 10 ^ 10 ∧
    (password ≠ [] →
      (displayBruteForceTime (analyzePassword pow password) dom).hidden = false ∧
      ∃ e : BruteForceEstimate,
        (displayBruteForceTime (analyzePassword pow password) dom).bruteforceTime = some e ∧
        e.totalCombinations = (analyzePassword pow password).totalCombinations ∧
        e.seconds = (analyzePassword pow password).totalCombinations.div (10 ^ 10) ∧
        ∀ powLo powHi lo hi : ℚ, isDouble powLo → isDouble powHi → isDouble lo → isDouble hi →
          powLo ≤ ((analyzePassword pow password).characterSetSize : ℚ)
                    ^ (analyzePassword pow password).length →
          ((analyzePassword pow password).characterSetSize : ℚ)
                    ^ (analyzePassword pow password).length ≤ powHi →
          10 ^ 10 * lo ≤ powLo → powHi ≤ 10 ^ 10 * hi →
          e.seconds.inRange lo hi) ∧
    (∀ analysis : Analysis, analysis.characterSetSize = 0 ∨ analysis.length = 0 →
      (displayBruteForceTime analysis dom).hidden = true ∧
      (displayBruteForceTime analysis dom).bruteforceTime = dom.bruteforceTime) := by
  refine ⟨by norm_num [GUESSES_PER_SECOND], ?_, ?_⟩
  · intro hne
    rw [displayBruteForceTime_of_ne_nil password hne dom]
    refine ⟨rfl, _, rfl, rfl, by norm_num, ?_⟩
    intro powLo powHi lo hi hpl hph hlo hhi h1 h2 h3 h4
    show ((analyzePassword pow password).totalCombinations.div 10000000000).inRange lo hi
    rw [totalCombinations_of_ne_nil password hne]
    obtain ⟨r, hr, h5, h6⟩ := hpow.inRange _ _ powLo powHi hpl hph h1 h2
    rw [hr]
    refine roundDouble_inRange _ lo hi hlo hhi ?_ ?_
    · rw [le_div_iff₀ (by norm_num)]
      linarith
    · rw [div_le_iff₀ (by norm_num)]
      linarith
  · intro analysis hguard
    unfold displayBruteForceTime
    rw [if_pos hguard]
    exact ⟨rfl, rfl⟩

/-- C13, amended, with the Math.pow that rounds to nearest, at the password "ab"
on a page whose section is still hidden: 26 squared is the double 676, so the
estimate lies between the doubles 0 and 1; and at the result of the empty password
nothing is computed. -/
theorem C13_crack_time_estimate_witness :
    ((displayBruteForceTime (analyzePassword nearestPow [97, 98]) ⟨true, none⟩).hidden = false ∧
      ∃ e : BruteForceEstimate,
        (displayBruteForceTime (analyzePassword nearestPow [97, 98]) ⟨true, none⟩).bruteforceTime
          = some e ∧
        e.seconds = (analyzePassword nearestPow [97, 98]).totalCombinations.div (10 ^ 10) ∧
        e.seconds.inRange 0 1) ∧
    ((displayBruteForceTime (analyzePassword nearestPow []) ⟨true, none⟩).hidden = true ∧
      (displayBruteForceTime (analyzePassword nearestPow []) ⟨true, none⟩).bruteforceTime
        = none) :=
  ⟨⟨((C13_crack_time_estimate nearestPow faithful_nearestPow [97, 98] ⟨true, none⟩).2.1
      (by decide)).1,
    (((C13_crack_time_estimate nearestPow faithful_nearestPow [97, 98] ⟨true, none⟩).2.1
      (by decide)).2).elim
      fun e he => ⟨e, he.1, he.2.2.1, he.2.2.2 676 676 0 1
        ⟨676, 0, by norm_num, by norm_num, by norm_num, by norm_num⟩
        ⟨676, 0, by norm_num, by norm_num, by norm_num, by norm_num⟩
        isDouble_zero
        ⟨1, 0, by norm_num, by norm_num, by norm_num, by norm_num⟩
        (by
          have h1 : (analyzePassword nearestPow [97, 98]).characterSetSize = 26 := by decide
          have h2 : (analyzePassword nearestPow [97, 98]).length = 2 := rfl
          rw [h1, h2]; norm_num)
        (by
          have h1 : (analyzePassword nearestPow [97, 98]).characterSetSize = 26 := by decide
          have h2 : (analyzePassword nearestPow [97, 98]).length = 2 := rfl
          rw [h1, h2]; norm_num)
        (by norm_num) (by norm_num)⟩⟩,
   (C13_crack_time_estimate nearestPow faithful_nearestPow [] ⟨true, none⟩).2.2
     (analyzePassword nearestPow []) (Or.inl (by decide))⟩

/-- C14, as stated, fails: for 0 seconds the text is not "less than 1 second"
with a small initial; and for the double 4609481352754894416642048 seconds the
five roundings of the chain of divisions give 146165694848899.53125, printed as
"146,165,694,848,900 millenniuma" in the locale en-US, where the quotient
s/(1000*365*86400) of the claim would be printed as 146,165,694,848,899. -/
theorem C14_counterexample :
    formatTime enUS (JSNumber.finite 0) ≠ "less than 1 second" ∧
    formatTime enUS (JSNumber.finite 4609481352754894416642048)
      = "146,165,694,848,900 millenniuma" ∧
    formatNumber enUS (JSNumber.finite (4609481352754894416642048 / (1000 * 365 * 86400)))
      = "146,165,694,848,899" := by
  have e1 : roundDouble (4609481352754894416642048 / 60)
      = JSNumber.finite 76824689212581576966144 := by
    rw [roundDouble_eval _ 76 4579108310495709 (by norm_num) (by norm_num) (by norm_num)
      ((roundHalfEven_up _ 4579108310495708 (by norm_num) (by norm_num)).trans (by norm_num))
      (by norm_num)]
    norm_num
  have e2 : roundDouble (76824689212581576966144 / 60)
      = JSNumber.finite 1280411486876359720960 := by
    rw [roundDouble_eval _ 70 4884382197862090 (by norm_num) (by norm_num) (by norm_num)
      ((roundHalfEven_up _ 4884382197862089 (by norm_num) (by norm_num)).trans (by norm_num))
      (by norm_num)]
    norm_num
  have e3 : roundDouble (1280411486876359720960 / 24)
      = JSNumber.finite 53350478619848318976 := by
    rw [roundDouble_eval _ 65 6512509597149453 (by norm_num) (by norm_num) (by norm_num)
      (roundHalfEven_down _ 6512509597149453 (by norm_num) (by norm_num)) (by norm_num)]
    norm_num
  have e4 : roundDouble (53350478619848318976 / 365)
      = JSNumber.finite 146165694848899520 := by
    rw [roundDouble_eval _ 57 4567677964028110 (by norm_num) (by norm_num) (by norm_num)
      ((roundHalfEven_up _ 4567677964028109 (by norm_num) (by norm_num)).trans (by norm_num))
      (by norm_num)]
    norm_num
  have e5 : roundDouble (146165694848899520 / 1000)
      = JSNumber.finite (4677302235164785 / 32) := by
    rw [roundDouble_eval _ 47 4677302235164785 (by norm_num) (by norm_num) (by norm_num)
      ((roundHalfEven_up _ 4677302235164784 (by norm_num) (by norm_num)).trans (by norm_num))
      (by norm_num)]
    norm_num
  have hchain : dividedBy (JSNumber.finite 4609481352754894416642048) [60, 60, 24, 365, 1000]
      = JSNumber.finite (4677302235164785 / 32) := by
    rw [dividedBy_cons, JSNumber.div_finite, e1, dividedBy_cons, JSNumber.div_finite, e2,
      dividedBy_cons, JSNumber.div_finite, e3, dividedBy_cons, JSNumber.div_finite, e4,
      dividedBy_cons, JSNumber.div_finite, e5, dividedBy_nil]
  refine ⟨?_, ?_, ?_⟩
  · rw [formatTime_lt_one enUS 0 (by norm_num)]
    decide
  · rw [formatTime_millennia enUS _ ((JSNumber.atLeast_finite _ _).2 (by norm_num)), hchain]
    have hround : mathRound (4677302235164785 / 32) = 146165694848900 := by
      norm_num [mathRound, Int.floor_eq_iff]
    have hne : JSNumber.finite (4677302235164785 / 32) ≠ JSNumber.finite 1 := by
      rw [ne_eq, JSNumber.finite.injEq]
      norm_num
    simp only [formatNumber]
    rw [if_neg (by norm_num), if_neg (by norm_num), if_neg (by norm_num), hround, if_pos hne]
    decide
  · have hround : mathRound (4609481352754894416642048 / (1000 * 365 * 86400))
        = 146165694848899 := by
      norm_num [mathRound, Int.floor_eq_iff]
    simp only [formatNumber]
    rw [if_neg (by norm_num), if_neg (by norm_num), if_neg (by norm_num), hround]
    decide

/-- C14, amended: for a number of seconds s that is a non-negative double,
formatTime picks its band from s alone: below 1 the fixed text "Less than 1
second" without a number; from 1 to below 60 the number s with the unit second;
from 60 to below 3600 the quotient of s by 60 with minute; from 3600 to below
86400 that quotient divided by 60 with hour; from 86400 to below 365 days the
latter divided by 24 with day; from 365 days to below 1000 years the latter
divided by 365 with year; from 1000 years on, and for Infinity, the latter divided
by 1000 with millennium. Every quotient is rounded to a double before the next
division, and the number is printed by formatNumber. -/
theorem C14_format_time_bands (L : Int → String) (s : ℚ) (hs : isDouble s) :
    (s < 1 → formatTime L (JSNumber.finite s) = "Less than 1 second") ∧
    (1 ≤ s → s < 60 →
      formatTime L (JSNumber.finite s)
        = formatNumber L (JSNumber.finite s) ++ " second"
          ++ (if JSNumber.finite s ≠ JSNumber.finite 1 then "s" else "")) ∧
    (60 ≤ s → s < 3600 →
      formatTime L (JSNumber.finite s)
        = formatNumber L (dividedBy (JSNumber.finite s) [60]) ++ " minute"
          ++ (if dividedBy (JSNumber.finite s) [60] ≠ JSNumber.finite 1 then "s" else "")) ∧
    (3600 ≤ s → s < 86400 →
      formatTime L (JSNumber.finite s)
        = formatNumber L (dividedBy (JSNumber.finite s) [60, 60]) ++ " hour"
          ++ (if dividedBy (JSNumber.finite s) [60, 60] ≠ JSNumber.finite 1 then "s" else "")) ∧
    (86400 ≤ s → s < 365 * 86400 →
      formatTime L (JSNumber.finite s)
        = formatNumber L (dividedBy (JSNumber.finite s) [60, 60, 24]) ++ " day"
          ++ (if dividedBy (JSNumber.finite s) [60, 60, 24] ≠ JSNumber.finite 1
              then "s" else "")) ∧
    (365 * 86400 ≤ s → s < 1000 * 365 * 86400 →
      formatTime L (JSNumber.finite s)
        = formatNumber L (dividedBy (JSNumber.finite s) [60, 60, 24, 365]) ++ " year"
          ++ (if dividedBy (JSNumber.finite s) [60, 60, 24, 365] ≠ JSNumber.finite 1
              then "s" else "")) ∧
    (1000 * 365 * 86400 ≤ s →
      formatTime L (JSNumber.finite s)
        = formatNumber L (dividedBy (JSNumber.finite s) [60, 60, 24, 365, 1000])
          ++ " millennium"
          ++ (if dividedBy (JSNumber.finite s) [60, 60, 24, 365, 1000] ≠ JSNumber.finite 1
              then "a" else "")) ∧
    formatTime L JSNumber.infinity
      = formatNumber L (dividedBy JSNumber.infinity [60, 60, 24, 365, 1000]) ++ " millennium"
        ++ (if dividedBy JSNumber.infinity [60, 60, 24, 365, 1000] ≠ JSNumber.finite 1
            then "a" else "") := by
  refine ⟨formatTime_lt_one L s, formatTime_seconds L s, ?_, ?_, ?_, ?_, ?_, ?_⟩
  · intro h1 h2
    exact formatTime_minutes L _ ((JSNumber.atLeast_finite s 60).2 h1) (lt_minutes s hs h2)
  · intro h1 h2
    exact formatTime_hours L _ ((JSNumber.atLeast_finite s 3600).2 h1) (lt_hours s hs h2)
  · intro h1 h2
    exact formatTime_days L _ ((JSNumber.atLeast_finite s 86400).2 h1)
      (lt_days s hs (by norm_num at h2; exact h2))
  · intro h1 h2
    exact formatTime_years L _
      ((JSNumber.atLeast_finite s 31536000).2 (by norm_num at h1; exact h1))
      (lt_years s hs (by norm_num at h2; exact h2))
  · intro h1
    exact formatTime_millennia L _
      ((JSNumber.atLeast_finite s 31536000000).2 (by norm_num at h1; exact h1))
  · exact formatTime_millennia L _ rfl

/-- C14, amended, in the locale en-US, at one double in each band: a half, 30,
600, 7200, 10 days, 10 years and 5000 years. -/
theorem C14_format_time_bands_witness :
    formatTime enUS (JSNumber.finite (1 / 2)) = "Less than 1 second" ∧
    formatTime enUS (JSNumber.finite 30)
      = formatNumber enUS (JSNumber.finite 30) ++ " second"
        ++ (if JSNumber.finite 30 ≠ JSNumber.finite 1 then "s" else "") ∧
    formatTime enUS (JSNumber.finite 600)
      = formatNumber enUS (dividedBy (JSNumber.finite 600) [60]) ++ " minute"
        ++ (if dividedBy (JSNumber.finite 600) [60] ≠ JSNumber.finite 1 then "s" else "") ∧
    formatTime enUS (JSNumber.finite 7200)
      = formatNumber enUS (dividedBy (JSNumber.finite 7200) [60, 60]) ++ " hour"
        ++ (if dividedBy (JSNumber.finite 7200) [60, 60] ≠ JSNumber.finite 1 then "s" else "") ∧
    formatTime enUS (JSNumber.finite 864000)
      = formatNumber enUS (dividedBy (JSNumber.finite 864000) [60, 60, 24]) ++ " day"
        ++ (if dividedBy (JSNumber.finite 864000) [60, 60, 24] ≠ JSNumber.finite 1
            then "s" else "") ∧
    formatTime enUS (JSNumber.finite 315360000)
      = formatNumber enUS (dividedBy (JSNumber.finite 315360000) [60, 60, 24, 365]) ++ " year"
        ++ (if dividedBy (JSNumber.finite 315360000) [60, 60, 24, 365] ≠ JSNumber.finite 1
            then "s" else "") ∧
    formatTime enUS (JSNumber.finite 157680000000)
      = formatNumber enUS (dividedBy (JSNumber.finite 157680000000) [60, 60, 24, 365, 1000])
        ++ " millennium"
        ++ (if dividedBy (JSNumber.finite 157680000000) [60, 60, 24, 365, 1000]
              ≠ JSNumber.finite 1 then "a" else "") :=
  ⟨(C14_format_time_bands enUS (1 / 2) ⟨1, -1, by norm_num, by norm_num, by norm_num, by norm_num⟩).1 (by norm_num),
   (C14_format_time_bands enUS 30 ⟨30, 0, by norm_num, by norm_num, by norm_num, by norm_num⟩).2.1 (by norm_num) (by norm_num),
   (C14_format_time_bands enUS 600 ⟨600, 0, by norm_num, by norm_num, by norm_num, by norm_num⟩).2.2.1 (by norm_num) (by norm_num),
   (C14_format_time_bands enUS 7200 ⟨7200, 0, by norm_num, by norm_num, by norm_num, by norm_num⟩).2.2.2.1 (by norm_num) (by norm_num),
   (C14_format_time_bands enUS 864000 ⟨864000, 0, by norm_num, by norm_num, by norm_num, by norm_num⟩).2.2.2.2.1 (by norm_num) (by norm_num),
   (C14_format_time_bands enUS 315360000 ⟨315360000, 0, by norm_num, by norm_num, by norm_num, by norm_num⟩).2.2.2.2.2.1 (by norm_num) (by norm_num),
   (C14_format_time_bands enUS 157680000000 ⟨157680000000, 0, by norm_num, by norm_num, by norm_num, by norm_num⟩).2.2.2.2.2.2.1 (by norm_num)⟩

/-- C15, as stated, fails: in the locale en-US formatTime of 90 seconds is not
"1.5 minutes", and formatTime of half a second is not "less than 1 second" with
a small initial. -/
theorem C15_counterexample :
    formatTime enUS (JSNumber.finite 90) ≠ "1.5 minutes" ∧
    formatTime enUS (JSNumber.finite (1 / 2)) ≠ "less than 1 second" := by
  rw [formatTime_ninety, formatTime_lt_one enUS (1 / 2) (by norm_num)]
  exact ⟨by decide, by decide⟩

/-- C15, amended: in every locale formatTime of 90 seconds is "2 minutes" (the
1.5 minutes are rounded to the nearest integer by formatNumber), and formatTime of
half a second is "Less than 1 second". -/
theorem C15_ninety_seconds (L : Int → String) :
    formatTime L (JSNumber.finite 90) = "2 minutes" ∧
    formatTime L (JSNumber.finite (1 / 2)) = "Less than 1 second" :=
  ⟨formatTime_ninety L, formatTime_lt_one L (1 / 2) (by norm_num)⟩

/-- C16 fails on the code: the password "aA1!aa" has 94 to the 6 combinations,
which is 68.99 seconds and 1.15 minutes, and the text shown is "1 minutes"; so is
the text for 61 seconds; and the plural of the last band reads "millenniuma". -/
theorem C16_one_minutes :
    (displayBruteForceTime (analyzePassword nearestPow (js "aA1!aa")) ⟨true, none⟩).bruteforceTime.map
        (BruteForceEstimate.timeEstimate enUS) = some "1 minutes" ∧
    formatTime enUS (JSNumber.finite 61) = "1 minutes" ∧
    formatTime enUS (JSNumber.finite (2 * (1000 * 365 * 86400))) = "2 millenniuma" := by
  have hjs : js "aA1!aa" = [97, 65, 49, 33, 97, 97] := by decide
  have hsize : (analyzePassword nearestPow [97, 65, 49, 33, 97, 97]).characterSetSize = 94 := by decide
  have hlen : (analyzePassword nearestPow [97, 65, 49, 33, 97, 97]).length = 6 := rfl
  refine ⟨?_, ?_, ?_⟩
  · rw [hjs, displayBruteForceTime_of_ne_nil _ (by decide),
      totalCombinations_of_ne_nil _ (by decide), hsize, hlen, nearestPow_eq]
    simp only [Option.map_some', BruteForceEstimate.timeEstimate, Option.some.injEq]
    have hpow : roundDouble (((94 : ℕ) : ℚ) ^ 6) = JSNumber.finite 689869781056 := by
      rw [roundDouble_of_isDouble _
        ⟨689869781056, 0, by norm_num, by norm_num, by norm_num, by norm_num⟩]
      norm_num
    rw [hpow]
    refine formatTime_one_minutes enUS _ ?_
    exact JSNumber.inRange_mono _ 68 69 61 75
      (roundDouble_inRange _ 68 69
        ⟨68, 0, by norm_num, by norm_num, by norm_num, by norm_num⟩
        ⟨69, 0, by norm_num, by norm_num, by norm_num, by norm_num⟩
        (by norm_num) (by norm_num))
      (by norm_num) (by norm_num)
  · exact formatTime_one_minutes enUS _ ⟨61, rfl, by norm_num, by norm_num⟩
  · have e1 : roundDouble (2 * (1000 * 365 * 86400) / 60) = JSNumber.finite 1051200000 :=
      roundDouble_exact_div _ 60 1051200000 (by norm_num)
        ⟨1051200000, 0, by norm_num, by norm_num, by norm_num, by norm_num⟩ (by norm_num)
    have e2 : roundDouble (1051200000 / 60) = JSNumber.finite 17520000 :=
      roundDouble_exact_div _ 60 17520000 (by norm_num)
        ⟨17520000, 0, by norm_num, by norm_num, by norm_num, by norm_num⟩ (by norm_num)
    have e3 : roundDouble (17520000 / 24) = JSNumber.finite 730000 :=
      roundDouble_exact_div _ 24 730000 (by norm_num)
        ⟨730000, 0, by norm_num, by norm_num, by norm_num, by norm_num⟩ (by norm_num)
    have e4 : roundDouble (730000 / 365) = JSNumber.finite 2000 :=
      roundDouble_exact_div _ 365 2000 (by norm_num)
        ⟨2000, 0, by norm_num, by norm_num, by norm_num, by norm_num⟩ (by norm_num)
    have e5 : roundDouble (2000 / 1000) = JSNumber.finite 2 :=
      roundDouble_exact_div _ 1000 2 (by norm_num)
        ⟨2, 0, by norm_num, by norm_num, by norm_num, by norm_num⟩ (by norm_num)
    have hchain : dividedBy (JSNumber.finite (2 * (1000 * 365 * 86400))) [60, 60, 24, 365, 1000]
        = JSNumber.finite 2 := by
      rw [dividedBy_cons, JSNumber.div_finite, e1, dividedBy_cons, JSNumber.div_finite, e2,
        dividedBy_cons, JSNumber.div_finite, e3, dividedBy_cons, JSNumber.div_finite, e4,
        dividedBy_cons, JSNumber.div_finite, e5, dividedBy_nil]
    rw [formatTime_millennia enUS _ ((JSNumber.atLeast_finite _ _).2 (by norm_num)), hchain,
      formatNumber_of_lt enUS 2 (by norm_num)]
    have hround : mathRound 2 = 2 := by
      norm_num [mathRound, Int.floor_eq_iff]
    have hne : JSNumber.finite 2 ≠ JSNumber.finite 1 := by
      rw [ne_eq, JSNumber.finite.injEq]
      norm_num
    rw [hround, if_pos hne]
    decide

/-- C18, as stated, fails at the empty string: characterTypes is 0, not 4, and
the explanations hold the remark for all four character types next to the four
remarks that start with "Consider adding". -/
theorem C18_counterexample :
    (analyzePassword nearestPow []).characterTypes = 0 ∧
    allFourRemark ∈ (analyzePassword nearestPow []).explanations ∧
    (∃ r ∈ (analyzePassword nearestPow []).explanations, isConsiderRemark r = true) ∧
    (analyzePassword nearestPow []).explanations[1]? ≠ varietyRemark (analyzePassword nearestPow []).characterTypes := by
  rw [explanations_nil, characterTypes_nil]
  refine ⟨rfl, by decide, ⟨"Consider adding lowercase letters.", by decide, by decide⟩, ?_⟩
  decide

/-- C18, amended to non-empty passwords: the second explanation is the variety
remark of the band of characterTypes, the remark for all four character types is
among the explanations iff characterTypes is 4, and when it is, no explanation
starts with "Consider adding". -/
theorem C18_variety_remark (pow : Nat → Nat → JSNumber) (password : JSString) (hne : password ≠ []) :
    (analyzePassword pow password).explanations[1]?
      = varietyRemark (analyzePassword pow password).characterTypes ∧
    (allFourRemark ∈ (analyzePassword pow password).explanations ↔
      (analyzePassword pow password).characterTypes = 4) ∧
    (allFourRemark ∈ (analyzePassword pow password).explanations →
      ∀ r ∈ (analyzePassword pow password).explanations, isConsiderRemark r = false) := by
  have hband := varietyRemark_of_band (analyzePassword pow password).characterTypes
    (characterTypes_pos_of_ne_nil password hne) (characterTypes_le_four password)
  have hmem : allFourRemark ∈ (analyzePassword pow password).explanations ↔
      (analyzePassword pow password).characterTypes = 4 := by
    rw [analyzePassword_explanations, ← hband.2]
    simp only [List.mem_append, List.mem_cons, List.mem_singleton, List.not_mem_nil, or_false,
      allFourRemark_ne_lengthRemark, allFourRemark_ne_closingRemark,
      allFourRemark_not_mem_missing, false_or]
    exact eq_comm
  refine ⟨?_, hmem, ?_⟩
  · rw [analyzePassword_explanations]
    simp only [List.cons_append, List.getElem?_cons_succ, List.getElem?_cons_zero]
    exact hband.1
  · intro hall r hr
    have h4 := hmem.1 hall
    have hflags := countTrue_eq_four _ _ _ _ ((analyzePassword_characterTypes password).symm.trans h4)
    rw [analyzePassword_explanations, hflags.1, hflags.2.1, hflags.2.2.1, hflags.2.2.2, h4] at hr
    simp only [missingClassRemarks, if_true, List.append_nil, List.cons_append, List.nil_append,
      List.mem_cons, List.mem_singleton, List.not_mem_nil, or_false] at hr
    rcases hr with h | h | h
    · rw [h]; exact isConsiderRemark_lengthRemark _
    · rw [h]; decide
    · rw [h]; exact isConsiderRemark_closingRemark _

/-- C18, amended, at the password "aA1!": it holds all four classes, its second
explanation is the remark for all four, and none starts with "Consider adding". -/
theorem C18_variety_remark_witness :
    (analyzePassword nearestPow [97, 65, 49, 33]).explanations[1]?
      = varietyRemark (analyzePassword nearestPow [97, 65, 49, 33]).characterTypes ∧
    (allFourRemark ∈ (analyzePassword nearestPow [97, 65, 49, 33]).explanations ↔
      (analyzePassword nearestPow [97, 65, 49, 33]).characterTypes = 4) :=
  ⟨(C18_variety_remark nearestPow [97, 65, 49, 33] (by decide)).1,
   (C18_variety_remark nearestPow [97, 65, 49, 33] (by decide)).2.1⟩

/-- C19: appending any string s to any password p lowers neither the score nor
the ordinal of the strength level. -/
theorem C19_append_never_lowers (pow : Nat → Nat → JSNumber) (p s : JSString) :
    (analyzePassword pow p).score ≤ (analyzePassword pow (p ++ s)).score ∧
    (analyzePassword pow p).strength.ordinal ≤ (analyzePassword pow (p ++ s)).strength.ordinal := by
  have hscore : (analyzePassword pow p).score ≤ (analyzePassword pow (p ++ s)).score := by
    rw [analyzePassword_score, analyzePassword_score]
    exact add_le_add (lengthContribution_mono _ _ (by simp))
      (varietyContribution_mono _ _ (characterTypes_append p s) (characterTypes_le_four _))
  refine ⟨hscore, ?_⟩
  rw [analyzePassword_strength, analyzePassword_strength]
  exact determineStrength_mono _ _ hscore

/-- C20: analyzePassword rates a password VERY_STRONG iff its length is at
least 16 and it has at least three of the four character classes; a password
shorter than 12 is rated neither STRONG nor VERY_STRONG. -/
theorem C20_very_strong_iff (pow : Nat → Nat → JSNumber) (password : JSString) :
    ((analyzePassword pow password).strength = StrengthLevel.VERY_STRONG ↔
      16 ≤ (analyzePassword pow password).length ∧ 3 ≤ (analyzePassword pow password).characterTypes) ∧
    ((analyzePassword pow password).length < 12 →
      (analyzePassword pow password).strength ≠ StrengthLevel.STRONG ∧
      (analyzePassword pow password).strength ≠ StrengthLevel.VERY_STRONG) := by
  have ht := @characterTypes_le_four pow password
  have hv := varietyContribution_bounds (analyzePassword pow password).characterTypes
  simp only [analyzePassword_strength, ne_eq, determineStrength_very_strong_iff,
    determineStrength_strong_iff, analyzePassword_score, analyzePassword_length] at *
  generalize (analyzePassword pow password).characterTypes = t at *
  constructor
  · by_cases h16 : 16 ≤ password.length
    · have hl : lengthContribution password.length = 3 := by
        simp [lengthContribution, h16]
      rw [hl]
      interval_cases t <;> norm_num [varietyContribution, h16]
    · have hl : lengthContribution password.length ≤ 2 := by
        unfold lengthContribution
        split_ifs <;> first | omega | norm_num
      constructor
      · intro h
        linarith [hv.2]
      · rintro ⟨h, -⟩
        exact absurd h h16
  · intro hlt
    have hl : lengthContribution password.length ≤ 1 := by
      unfold lengthContribution
      split_ifs <;> first | omega | norm_num
    constructor
    · rintro ⟨h1, -⟩
      linarith [hv.2]
    · intro h1
      linarith [hv.2]

/-- C20 at the password "aA1!aaa" of length 7: it is rated neither STRONG nor
VERY_STRONG. -/
theorem C20_very_strong_iff_witness :
    (analyzePassword nearestPow [97, 65, 49, 33, 97, 97, 97]).strength ≠ StrengthLevel.STRONG ∧
    (analyzePassword nearestPow [97, 65, 49, 33, 97, 97, 97]).strength ≠ StrengthLevel.VERY_STRONG :=
  (C20_very_strong_iff nearestPow [97, 65, 49, 33, 97, 97, 97]).2 (by decide)

end PasswordWebsite
